import Mathlib

/-!
Shallow embedding of the authoritative game core of the shader-pilot
repository (src/server/GameState.ts together with the constants of
src/shared/Protocol.ts), and proofs of the specified properties.

JavaScript numbers are modelled as exact rationals.  The only place the
source computes a square root is in normalising the projectile velocity
(and in the power-up distance test); both uses are eliminated exactly:

* the power-up test `sqrt d2 < 15` is embedded as `d2 < 15 * 15`
  (both sides are nonnegative);
* in the swept-segment test every quantity that the source divides by
  the projectile speed `‖v‖` is kept multiplied by `‖v‖`: the projection
  `t = dot(d, v/‖v‖)` becomes `tS = dot(d, v)`, the segment length
  `moveDist = ‖v·dt‖ = |dt|·‖v‖` becomes `mS = |dt| · dot(v,v)`, and the
  closest point `origin + (v/‖v‖)·t` becomes `origin + (tS/dot(v,v))·v`.
  Branch conditions (`t ≤ 0`, `t ≥ moveDist`) and the comparison of the
  per-player `distAlongRay` values for one projectile are all preserved
  exactly by this common positive scaling, and when `‖v‖ = 0` the source
  skips normalisation, `t = dot(d, 0) = 0`, and both sides take the
  first branch, so the embedding agrees there as well.

Practice mode is never enabled in the modelled flows (the claims concern
the core operations only), so the bot controller is a no-op and is not
modelled; `isPracticeMode` is `false` throughout.
-/

set_option maxRecDepth 100000

namespace ShaderPilot

/-- Three-component vector over exact rationals (shared/Protocol.ts `Vector3`). -/
structure Vec3 where
  x : ℚ
  y : ℚ
  z : ℚ
deriving DecidableEq, Repr

/-- Quaternion (shared/Protocol.ts `Quaternion`). -/
structure Quat where
  x : ℚ
  y : ℚ
  z : ℚ
  w : ℚ
deriving DecidableEq, Repr

def vadd (a b : Vec3) : Vec3 := ⟨a.x + b.x, a.y + b.y, a.z + b.z⟩

def vsub (a b : Vec3) : Vec3 := ⟨a.x - b.x, a.y - b.y, a.z - b.z⟩

def smul (c : ℚ) (v : Vec3) : Vec3 := ⟨c * v.x, c * v.y, c * v.z⟩

def dot (a b : Vec3) : ℚ := a.x * b.x + a.y * b.y + a.z * b.z

def distSq (a b : Vec3) : ℚ := (a.x - b.x) ^ 2 + (a.y - b.y) ^ 2 + (a.z - b.z) ^ 2

/-- Team tag (the JS union of "red" and "blue"). -/
inductive Team where
  | red
  | blue
deriving DecidableEq, Repr

/-- Game mode (the JS union of "ffa" and "team"). -/
inductive GameMode where
  | ffa
  | team
deriving DecidableEq, Repr

/-- Projectile type (the JS union of "laser", "missile" and "plasma"). -/
inductive ProjectileType where
  | laser
  | missile
  | plasma
deriving DecidableEq, Repr

/-- Power-up type (the JS union of "health", "shield", "speed", "rapidfire" and "damage"). -/
inductive PowerUpType where
  | health
  | shield
  | speed
  | rapidfire
  | damage
deriving DecidableEq, Repr

/-- Player record (shared/Protocol.ts `PlayerState`).  `team = none` models
the JS `null`. -/
structure PlayerState where
  id : String
  name : String
  position : Vec3
  rotation : Quat
  velocity : Vec3
  health : ℚ
  maxHealth : ℚ
  shield : ℚ
  score : ℚ
  kills : ℚ
  deaths : ℚ
  team : Option Team
  isAlive : Bool
  lastUpdateTime : ℚ
deriving DecidableEq, Repr

/-- Projectile record (shared/Protocol.ts `ProjectileState`). -/
structure ProjectileState where
  id : String
  ownerId : String
  type : ProjectileType
  position : Vec3
  velocity : Vec3
  damage : ℚ
  createdAt : ℚ
deriving DecidableEq, Repr

/-- Power-up record (shared/Protocol.ts `PowerUpState`). -/
structure PowerUpState where
  id : String
  type : PowerUpType
  position : Vec3
  respawnTime : ℚ
  isActive : Bool
deriving DecidableEq, Repr

/-- Team score pair (`teamScores = { red, blue }`). -/
structure TeamScores where
  red : ℚ
  blue : ℚ
deriving DecidableEq, Repr

/-- Hit event (`HitResult` in GameState.ts). -/
structure HitResult where
  targetId : String
  attackerId : String
  damage : ℚ
  newHealth : ℚ
deriving DecidableEq, Repr

/-- Kill event (`KillResult` in GameState.ts). -/
structure KillResult where
  victimId : String
  killerId : String
  victimName : String
  killerName : String
  weapon : ProjectileType
  position : Vec3
deriving DecidableEq, Repr

/-- Pickup event (`PowerUpCollectResult` in GameState.ts). -/
structure PowerUpCollectResult where
  powerUpId : String
  playerId : String
  type : PowerUpType
deriving DecidableEq, Repr

/-- Per-tick movement input (shared/Protocol.ts `PlayerInput`). -/
structure PlayerInput where
  forward : ℚ
  strafe : ℚ
  vertical : ℚ
  pitch : ℚ
  yaw : ℚ
  roll : ℚ
  boost : Bool
  timestamp : ℚ
deriving DecidableEq, Repr

/-- Shoot request (shared/Protocol.ts `ShootInput`). -/
structure ShootInput where
  type : ProjectileType
  direction : Vec3
deriving DecidableEq, Repr

/-- The authoritative world state (GameState.ts class fields; the player
`Map` is modelled as an insertion-ordered association list with the
player id field as the key, which is exactly the iteration order and
keying discipline of a JS `Map`). -/
structure GameState where
  players : List PlayerState
  projectiles : List ProjectileState
  powerUps : List PowerUpState
  gameMode : GameMode
  teamScores : TeamScores
  projectileIdCounter : Nat
deriving DecidableEq, Repr

/-! Game constants (shared/Protocol.ts `GAME_CONSTANTS`, plus the inline
constants of GameState.ts). -/

def WORLD_SIZE : ℚ := 2000

def PLAYER_SPEED : ℚ := 50

def PLAYER_BOOST_MULTIPLIER : ℚ := 2

def PLAYER_MAX_HEALTH : ℚ := 100

def PLAYER_MAX_SHIELD : ℚ := 50

def LASER_SPEED : ℚ := 200

def LASER_DAMAGE : ℚ := 15

def MISSILE_SPEED : ℚ := 80

def MISSILE_DAMAGE : ℚ := 40

def PLASMA_SPEED : ℚ := 120

def PLASMA_DAMAGE : ℚ := 25

def POWERUP_RESPAWN_TIME : ℚ := 30000

/-- Inline constant `const hitRadius = 80` of GameState.update. -/
def hitRadius : ℚ := 80

/-- Inline pickup radius `distance < 15` of the power-up loop. -/
def pickupRadius : ℚ := 15

/-- Inline projectile time-to-live `now - proj.createdAt > 5000`. -/
def PROJECTILE_TTL : ℚ := 5000

/-! The entity store: lookup / insert / in-place replace on the
insertion-ordered player list, mirroring JS `Map.get`, `Map.set` and
in-place mutation of a stored object. -/

/-- JS `Map.get`: first (unique, in a real `Map`) entry with the given id. -/
def findPlayer : List PlayerState → String → Option PlayerState
  | [], _ => none
  | p :: ps, i => if p.id = i then some p else findPlayer ps i

/-- JS `Map.set`: replace the entry with this key in place, else append. -/
def setPlayer : List PlayerState → PlayerState → List PlayerState
  | [], p => [p]
  | q :: qs, p => if q.id = p.id then p :: qs else q :: setPlayer qs p

/-- In-place mutation of the stored object with the given id (the JS code
mutates the object returned by `Map.get`, which is the stored entry). -/
def updateById (ps : List PlayerState) (i : String) (p' : PlayerState) : List PlayerState :=
  ps.map (fun q => if q.id = i then p' else q)

/-! World initialisation. -/

/-- Free-flight spawn pool (`SPAWN_POSITIONS`). -/
def SPAWN_POSITIONS : List Vec3 :=
  [⟨0, 0, 0⟩, ⟨100, 20, 100⟩, ⟨-100, -20, 100⟩, ⟨100, 10, -100⟩, ⟨-100, -10, -100⟩,
   ⟨0, 40, 150⟩, ⟨0, -40, -150⟩, ⟨150, 0, 0⟩, ⟨-150, 0, 0⟩]

/-- Red team spawn pool (`TEAM_SPAWNS.red`). -/
def TEAM_SPAWNS_red : List Vec3 :=
  [⟨-150, 0, 0⟩, ⟨-120, 20, 50⟩, ⟨-120, -20, -50⟩]

/-- Blue team spawn pool (`TEAM_SPAWNS.blue`). -/
def TEAM_SPAWNS_blue : List Vec3 :=
  [⟨150, 0, 0⟩, ⟨120, 20, 50⟩, ⟨120, -20, -50⟩]

/-- The fixed power-up layout created by `initPowerUps` (ids
`powerup_0` … `powerup_5`, types cycling through the five-type list). -/
def initPowerUps : List PowerUpState :=
  [⟨"powerup_0", PowerUpType.health, ⟨0, 0, 0⟩, 0, true⟩,
   ⟨"powerup_1", PowerUpType.shield, ⟨80, 10, 80⟩, 0, true⟩,
   ⟨"powerup_2", PowerUpType.speed, ⟨-80, -10, 80⟩, 0, true⟩,
   ⟨"powerup_3", PowerUpType.rapidfire, ⟨80, 0, -80⟩, 0, true⟩,
   ⟨"powerup_4", PowerUpType.damage, ⟨-80, 0, -80⟩, 0, true⟩,
   ⟨"powerup_5", PowerUpType.health, ⟨0, 30, 0⟩, 0, true⟩]

/-- The constructor `new GameState(mode)`. -/
def GameState.init (mode : GameMode) : GameState :=
  ⟨[], [], initPowerUps, mode, ⟨0, 0⟩, 0⟩

/-- Spawn point selection (`getSpawnPosition`); the `Math.random()` pool
index is passed in as `r`. -/
def getSpawnPosition (mode : GameMode) (team : Option Team) (r : Nat) : Vec3 :=
  match team with
  | some t =>
      if mode = GameMode.team then
        (match t with
          | Team.red => TEAM_SPAWNS_red
          | Team.blue => TEAM_SPAWNS_blue).getD (r % 3) ⟨0, 0, 0⟩
      else SPAWN_POSITIONS.getD (r % 9) ⟨0, 0, 0⟩
  | none => SPAWN_POSITIONS.getD (r % 9) ⟨0, 0, 0⟩

/-! Public operations of the entity store. -/

/-- Operation addPlayer(id, name, team?); `now` models `Date.now()` and `r` the
random spawn index. -/
def addPlayer (st : GameState) (id name : String) (team : Option Team) (now : ℚ)
    (r : Nat) : GameState × PlayerState :=
  let spawnPos := getSpawnPosition st.gameMode team r
  let player : PlayerState :=
    { id := id, name := name, position := spawnPos,
      rotation := ⟨0, 0, 0, 1⟩,
      velocity := ⟨0, 0, 0⟩,
      health := PLAYER_MAX_HEALTH, maxHealth := PLAYER_MAX_HEALTH,
      shield := 0, score := 0, kills := 0, deaths := 0,
      team := if st.gameMode = GameMode.team then some (team.getD Team.red) else none,
      isAlive := true, lastUpdateTime := now }
  ({ st with players := setPlayer st.players player }, player)

/-- Operation removePlayer(id): delete the map entry and purge owned projectiles. -/
def removePlayer (st : GameState) (id : String) : GameState :=
  { st with
    players := st.players.filter (fun p => !(p.id == id)),
    projectiles := st.projectiles.filter (fun p => !(p.ownerId == id)) }

/-- Operation updatePlayerInput(playerId, input): silent no-op for a missing or
dead player, otherwise set velocity from the input axes and integrate the
Euler-angle-style increments into the stored quaternion components. -/
def updatePlayerInput (st : GameState) (playerId : String) (input : PlayerInput)
    (now : ℚ) : GameState :=
  match findPlayer st.players playerId with
  | none => st
  | some player =>
      if player.isAlive = false then st
      else
        let speed := PLAYER_SPEED * (if input.boost then PLAYER_BOOST_MULTIPLIER else 1)
        let rq := PlayerState.rotation player
        let player' :=
          { player with
            velocity := ⟨input.strafe * speed, input.vertical * speed, input.forward * speed⟩,
            rotation := ⟨rq.x + input.pitch * (3 / 100), rq.y + input.yaw * (3 / 100),
                         rq.z + input.roll * (3 / 100), rq.w⟩,
            lastUpdateTime := now }
        { st with players := updateById st.players playerId player' }

/-- Operation playerShoot(playerId, shootInput): silent no-op (returning `null`)
for a missing or dead player; otherwise create a projectile of the
requested type from the position of the shooter. -/
def playerShoot (st : GameState) (playerId : String) (shootInput : ShootInput)
    (now : ℚ) : GameState × Option ProjectileState :=
  match findPlayer st.players playerId with
  | none => (st, none)
  | some player =>
      if player.isAlive = false then (st, none)
      else
        let sd : ℚ × ℚ :=
          match shootInput.type with
          | ProjectileType.missile => (MISSILE_SPEED, MISSILE_DAMAGE)
          | ProjectileType.plasma => (PLASMA_SPEED, PLASMA_DAMAGE)
          | ProjectileType.laser => (LASER_SPEED, LASER_DAMAGE)
        let proj : ProjectileState :=
          { id := "proj_" ++ toString st.projectileIdCounter,
            ownerId := playerId, type := shootInput.type,
            position := player.position,
            velocity := smul sd.1 shootInput.direction,
            damage := sd.2, createdAt := now }
        ({ st with projectiles := st.projectiles ++ [proj],
                   projectileIdCounter := st.projectileIdCounter + 1 }, some proj)

/-- Operation respawnPlayer(playerId): `null` no-op for a missing player, else
reset position/health/shield/alive in place. -/
def respawnPlayer (st : GameState) (playerId : String) (now : ℚ)
    (r : Nat) : GameState × Option PlayerState :=
  match findPlayer st.players playerId with
  | none => (st, none)
  | some player =>
      let spawnPos := getSpawnPosition st.gameMode player.team r
      let player' :=
        { player with
          position := spawnPos,
          rotation := ⟨0, 0, 0, 1⟩,
          velocity := ⟨0, 0, 0⟩,
          health := PLAYER_MAX_HEALTH, shield := 0,
          isAlive := true, lastUpdateTime := now }
      ({ st with players := updateById st.players playerId player' }, some player')

/-- Operation setGameMode(mode): switch mode and reset team scores (the
player `team` fields are left untouched by the source). -/
def setGameMode (st : GameState) (mode : GameMode) : GameState :=
  { st with gameMode := mode, teamScores := ⟨0, 0⟩ }

/-! The tick (`update(deltaTime)`); `now` models `Date.now()`. -/

/-- Axis clamp to the world cube (`Math.max(-bounds, Math.min(bounds, v))`). -/
def clampCoord (v : ℚ) : ℚ := max (-(WORLD_SIZE / 2)) (min (WORLD_SIZE / 2) v)

/-- Per-player movement integration with world-bounds clamp; dead players
are skipped. -/
def movePlayer (dt : ℚ) (p : PlayerState) : PlayerState :=
  if p.isAlive = false then p
  else
    { p with position := ⟨clampCoord (p.position.x + p.velocity.x * dt),
                          clampCoord (p.position.y + p.velocity.y * dt),
                          clampCoord (p.position.z + p.velocity.z * dt)⟩ }

/-- Team-damage guard: the owner exists in the store and shares the
candidate target team (`owner && owner.team === player.team`). -/
def sameTeamAsOwner (players : List PlayerState) (ownerId : String)
    (p : PlayerState) : Bool :=
  match findPlayer players ownerId with
  | some owner => owner.team = p.team
  | none => false

/-- Swept segment-sphere test against one candidate player, returning the
clamped distance along the segment (scaled by the projectile speed, see
the file header) when the player is eligible and within the hit radius.
Mirrors the body of the `for` loop of GameState.update lines 467-522. -/
def hitCandidate (mode : GameMode) (players : List PlayerState) (ownerId : String)
    (origin vel : Vec3) (dt : ℚ) (p : PlayerState) : Option ℚ :=
  if p.isAlive = false then none
  else if p.id = ownerId then none
  else if mode = GameMode.team ∧ sameTeamAsOwner players ownerId p = true then none
  else
    let s2 := dot vel vel
    let d := vsub p.position origin
    let tS := dot d vel
    let mS := s2 * |dt|
    let closest :=
      if tS ≤ 0 then origin
      else if tS ≥ mS then vadd origin (smul dt vel)
      else vadd origin (smul (tS / s2) vel)
    let dAlong := if tS ≤ 0 then (0 : ℚ) else if tS ≥ mS then mS else tS
    if distSq p.position closest < hitRadius * hitRadius then some dAlong else none

/-- One step of the closest-hit selection (`if (distAlongRay < hitDist)`
with `hitDist` starting at `Infinity`). -/
def selectStep (f : PlayerState → Option ℚ) (best : Option (ℚ × PlayerState))
    (p : PlayerState) : Option (ℚ × PlayerState) :=
  match f p with
  | none => best
  | some dA =>
      match best with
      | none => some (dA, p)
      | some (bd, bp) => if dA < bd then some (dA, p) else some (bd, bp)

/-- Scan of the player store for the hit with the smallest distance along
the swept segment. -/
def selectHit (mode : GameMode) (players : List PlayerState) (ownerId : String)
    (origin vel : Vec3) (dt : ℚ) : Option (ℚ × PlayerState) :=
  players.foldl (selectStep (hitCandidate mode players ownerId origin vel dt)) none

/-- Shield absorption (`if (hitPlayer.shield > 0) …`): returns the new
shield and the damage left over for health. -/
def absorbShield (shield damage : ℚ) : ℚ × ℚ :=
  if 0 < shield then (shield - min shield damage, damage - min shield damage)
  else (shield, damage)

/-- Result of resolving a single projectile for one tick. -/
structure ProjOutcome where
  players : List PlayerState
  scores : TeamScores
  hits : List HitResult
  kills : List KillResult
  proj : ProjectileState
  removed : Bool
deriving Repr

/-- The mutation of a hit player whose health dropped to ≤ 0
(`hitPlayer.health = 0; hitPlayer.isAlive = false; hitPlayer.deaths++`
after shield absorption). -/
def lethalVictim (hp : PlayerState) (dmg : ℚ) : PlayerState :=
  { hp with shield := (absorbShield hp.shield dmg).1, health := 0,
            isAlive := false, deaths := hp.deaths + 1 }

/-- The mutation of a hit player who survives the hit. -/
def nonlethalVictim (hp : PlayerState) (dmg : ℚ) : PlayerState :=
  { hp with shield := (absorbShield hp.shield dmg).1,
            health := hp.health - (absorbShield hp.shield dmg).2 }

/-- The kill bookkeeping on the attacker (`attacker.kills++; attacker.score += 100`). -/
def bumpAttacker (a : PlayerState) : PlayerState :=
  { a with kills := a.kills + 1, score := a.score + 100 }

/-- The team-score bump (`if (this.gameMode === team && attacker.team)
this.teamScores[attacker.team]++`). -/
def bumpTeamScore (mode : GameMode) (sc : TeamScores) (t : Option Team) : TeamScores :=
  if mode = GameMode.team then
    match t with
    | some Team.red => { sc with red := sc.red + 1 }
    | some Team.blue => { sc with blue := sc.blue + 1 }
    | none => sc
  else sc

/-- Resolution of one projectile (GameState.update lines 439-584):
swept-hit selection, shield-then-health damage, kill bookkeeping, and
TTL / out-of-bounds / position-commit handling when there is no hit.
The hit event records the full projectile damage and the unclamped
post-hit health. -/
def resolveProjectile (mode : GameMode) (now dt : ℚ) (ps : List PlayerState)
    (sc : TeamScores) (proj : ProjectileState) : ProjOutcome :=
  let next := vadd proj.position (smul dt proj.velocity)
  match selectHit mode ps proj.ownerId proj.position proj.velocity dt with
  | some (_, hitPlayer) =>
      let newHealth := hitPlayer.health - (absorbShield hitPlayer.shield proj.damage).2
      let hitEv : HitResult :=
        ⟨hitPlayer.id, proj.ownerId, proj.damage, newHealth⟩
      if newHealth ≤ 0 then
        let ps1 := updateById ps hitPlayer.id (lethalVictim hitPlayer proj.damage)
        match findPlayer ps1 proj.ownerId with
        | some attacker =>
            let killEv : KillResult :=
              ⟨hitPlayer.id, proj.ownerId, hitPlayer.name, attacker.name, proj.type,
               hitPlayer.position⟩
            ⟨updateById ps1 attacker.id (bumpAttacker attacker),
             bumpTeamScore mode sc attacker.team, [hitEv], [killEv], proj, true⟩
        | none =>
            let killEv : KillResult :=
              ⟨hitPlayer.id, proj.ownerId, hitPlayer.name, "Unknown", proj.type,
               hitPlayer.position⟩
            ⟨ps1, sc, [hitEv], [killEv], proj, true⟩
      else
        ⟨updateById ps hitPlayer.id (nonlethalVictim hitPlayer proj.damage), sc,
         [hitEv], [], proj, true⟩
  | none =>
      if now - proj.createdAt > PROJECTILE_TTL then ⟨ps, sc, [], [], proj, true⟩
      else if |next.x| > WORLD_SIZE / 2 ∨ |next.y| > WORLD_SIZE / 2 ∨
              |next.z| > WORLD_SIZE / 2 then ⟨ps, sc, [], [], proj, true⟩
      else ⟨ps, sc, [], [], { proj with position := next }, false⟩

/-- Accumulator of the projectile loop of the tick. -/
structure CombatAcc where
  players : List PlayerState
  scores : TeamScores
  removeIds : List String
  projs : List ProjectileState
  hits : List HitResult
  kills : List KillResult
deriving Repr

/-- One iteration of `this.projectiles.forEach(…)`. -/
def combatStep (mode : GameMode) (now dt : ℚ) (acc : CombatAcc)
    (proj : ProjectileState) : CombatAcc :=
  let r := resolveProjectile mode now dt acc.players acc.scores proj
  { players := r.players, scores := r.scores,
    removeIds := if r.removed then acc.removeIds ++ [proj.id] else acc.removeIds,
    projs := acc.projs ++ [r.proj],
    hits := acc.hits ++ r.hits, kills := acc.kills ++ r.kills }

/-- Pickup condition for one player against one power-up
(`player.isAlive` and `distance < 15`, squared on both sides). -/
def collectsPowerUp (pu : PowerUpState) (p : PlayerState) : Bool :=
  p.isAlive && decide (distSq p.position pu.position < pickupRadius * pickupRadius)

/-- Effect application applyPowerUp: only health and shield have an effect. -/
def applyPowerUp (p : PlayerState) (t : PowerUpType) : PlayerState :=
  match t with
  | PowerUpType.health => { p with health := min p.maxHealth (p.health + 50) }
  | PowerUpType.shield => { p with shield := min PLAYER_MAX_SHIELD (p.shield + 50) }
  | _ => p

/-- Result of processing one power-up for one tick. -/
structure PickupResult where
  powerUp : PowerUpState
  players : List PlayerState
  events : List PowerUpCollectResult
deriving Repr

/-- Tick of one power-up (GameState.update lines 590-618): reactivate an
inactive power-up whose timer has elapsed; for an active one, visit every
player in store order and, for each living player inside the pickup
radius, apply the effect, deactivate, reset the respawn timer and emit a
pickup event.  Note the inner `forEach` of the source neither breaks nor
re-checks `isActive`, so every overlapping player collects. -/
def collectPowerUp (now : ℚ) (ps : List PlayerState) (pu : PowerUpState) : PickupResult :=
  if pu.isActive = false then
    if now ≥ pu.respawnTime then ⟨{ pu with isActive := true }, ps, []⟩
    else ⟨pu, ps, []⟩
  else
    ps.foldl
      (fun acc p =>
        if collectsPowerUp pu p = true then
          ⟨{ acc.powerUp with isActive := false, respawnTime := now + POWERUP_RESPAWN_TIME },
           acc.players ++ [applyPowerUp p pu.type],
           acc.events ++ [⟨pu.id, p.id, pu.type⟩]⟩
        else ⟨acc.powerUp, acc.players ++ [p], acc.events⟩)
      ⟨pu, [], []⟩

/-- Accumulator of the power-up loop of the tick. -/
structure PickupAcc where
  powerUps : List PowerUpState
  players : List PlayerState
  events : List PowerUpCollectResult
deriving Repr

/-- One iteration of `this.powerUps.forEach(…)`. -/
def pickupStep (now : ℚ) (acc : PickupAcc) (pu : PowerUpState) : PickupAcc :=
  let r := collectPowerUp now acc.players pu
  { powerUps := acc.powerUps ++ [r.powerUp], players := r.players,
    events := acc.events ++ [] ++ r.events }

/-- Tick operation update(deltaTime): movement integration, projectile resolution,
projectile removal by collected ids, and the power-up pass; returns the
new state with the hit, kill and pickup events of the tick. -/
def update (now dt : ℚ) (st : GameState) :
    GameState × List HitResult × List KillResult × List PowerUpCollectResult :=
  let ps0 := st.players.map (movePlayer dt)
  let c := st.projectiles.foldl (combatStep st.gameMode now dt)
    ⟨ps0, st.teamScores, [], [], [], []⟩
  let projs2 := c.projs.filter (fun p => !(c.removeIds.contains p.id))
  let pk := st.powerUps.foldl (pickupStep now) ⟨[], c.players, []⟩
  ({ st with players := pk.players, projectiles := projs2, powerUps := pk.powerUps,
             teamScores := c.scores },
   c.hits, c.kills, pk.events)

/-! Concrete scenario states used by the end-to-end and counterexample
theorems. -/

/-- A free-for-all player at a given position with given health, no
shield, zero velocity. -/
def mkTestPlayer (i : String) (pos : Vec3) (h : ℚ) : PlayerState :=
  { id := i, name := i, position := pos,
    rotation := ⟨0, 0, 0, 1⟩, velocity := ⟨0, 0, 0⟩,
    health := h, maxHealth := 100, shield := 0, score := 0, kills := 0, deaths := 0,
    team := none, isAlive := true, lastUpdateTime := 0 }

/-! Store lemmas: `findPlayer`, `setPlayer`, `updateById`. -/

theorem findPlayer_id {ps : List PlayerState} {i : String} {p : PlayerState}
    (h : findPlayer ps i = some p) : p.id = i := by
  induction ps with
  | nil => simp [findPlayer] at h
  | cons q qs ih =>
      by_cases hq : q.id = i
      · simp [findPlayer, hq] at h
        subst h
        exact hq
      · simp [findPlayer, hq] at h
        exact ih h

theorem findPlayer_mem {ps : List PlayerState} {i : String} {p : PlayerState}
    (h : findPlayer ps i = some p) : p ∈ ps := by
  induction ps with
  | nil => simp [findPlayer] at h
  | cons q qs ih =>
      by_cases hq : q.id = i
      · simp [findPlayer, hq] at h
        subst h
        exact List.mem_cons_self _ _
      · simp [findPlayer, hq] at h
        exact List.mem_cons_of_mem _ (ih h)

theorem eq_of_mem_nodup_id {ps : List PlayerState} {p q : PlayerState}
    (hnd : List.Nodup (ps.map fun r => r.id)) (hp : p ∈ ps) (hq : q ∈ ps)
    (hid : p.id = q.id) : p = q := by
  induction ps with
  | nil => simp at hp
  | cons r rs ih =>
      simp only [List.map_cons, List.nodup_cons] at hnd
      rcases List.mem_cons.mp hp with hp1 | hp2
      · rcases List.mem_cons.mp hq with hq1 | hq2
        · rw [hp1, hq1]
        · exfalso
          apply hnd.1
          rw [← hp1, hid]
          exact List.mem_map_of_mem _ hq2
      · rcases List.mem_cons.mp hq with hq1 | hq2
        · exfalso
          apply hnd.1
          rw [← hq1, ← hid]
          exact List.mem_map_of_mem _ hp2
        · exact ih hnd.2 hp2 hq2

theorem findPlayer_of_mem_nodup {ps : List PlayerState} {p : PlayerState}
    (hnd : List.Nodup (ps.map fun r => r.id)) (hp : p ∈ ps) :
    findPlayer ps p.id = some p := by
  induction ps with
  | nil => simp at hp
  | cons q qs ih =>
      simp only [List.map_cons, List.nodup_cons] at hnd
      rcases List.mem_cons.mp hp with h1 | h2
      · subst h1
        simp [findPlayer]
      · have hne : ¬ q.id = p.id := by
          intro he
          apply hnd.1
          rw [he]
          exact List.mem_map_of_mem _ h2
        simp [findPlayer, hne]
        exact ih hnd.2 h2

theorem findPlayer_updateById_ne {ps : List PlayerState} {i j : String}
    {p' : PlayerState} (hp' : p'.id = i) (hne : j ≠ i) :
    findPlayer (updateById ps i p') j = findPlayer ps j := by
  induction ps with
  | nil => simp [updateById, findPlayer]
  | cons q qs ih =>
      simp only [updateById, List.map_cons]
      by_cases hq : q.id = i
      · rw [if_pos hq]
        have h1 : ¬ p'.id = j := by rw [hp']; exact fun he => hne he.symm
        have h2 : ¬ q.id = j := by rw [hq]; exact fun he => hne he.symm
        simp only [findPlayer, if_neg h1, if_neg h2]
        simp only [updateById] at ih
        exact ih
      · rw [if_neg hq]
        by_cases hqj : q.id = j
        · simp only [findPlayer, if_pos hqj]
        · simp only [findPlayer, if_neg hqj]
          simp only [updateById] at ih
          exact ih

theorem findPlayer_updateById_self {ps : List PlayerState} {i : String}
    {p' q : PlayerState} (hp' : p'.id = i) (hq : findPlayer ps i = some q) :
    findPlayer (updateById ps i p') i = some p' := by
  induction ps with
  | nil => simp [findPlayer] at hq
  | cons r rs ih =>
      simp only [updateById, List.map_cons]
      by_cases hr : r.id = i
      · rw [if_pos hr]
        simp [findPlayer, hp']
      · rw [if_neg hr]
        simp only [findPlayer, if_neg hr] at hq
        simp only [findPlayer, if_neg hr]
        simp only [updateById] at ih
        exact ih hq

theorem mem_updateById {ps : List PlayerState} {i : String} {p' q' : PlayerState}
    (h : q' ∈ updateById ps i p') :
    (q' = p' ∧ ∃ q ∈ ps, q.id = i) ∨ q' ∈ ps := by
  rcases List.mem_map.mp h with ⟨q, hq, he⟩
  by_cases hqi : q.id = i
  · simp [hqi] at he
    exact Or.inl ⟨he.symm, q, hq, hqi⟩
  · simp [hqi] at he
    subst he
    exact Or.inr hq

theorem mem_updateById_of_ne {ps : List PlayerState} {i : String}
    {p' q : PlayerState} (hq : q ∈ ps) (hne : q.id ≠ i) :
    q ∈ updateById ps i p' := by
  have : (if q.id = i then p' else q) = q := by simp [hne]
  rw [← this]
  exact List.mem_map_of_mem _ hq

theorem map_id_updateById {ps : List PlayerState} {i : String} {p' : PlayerState}
    (hp' : p'.id = i) :
    (updateById ps i p').map (fun p => p.id) = ps.map (fun p => p.id) := by
  induction ps with
  | nil => simp [updateById]
  | cons q qs ih =>
      by_cases hq : q.id = i
      · simp [updateById, hq, hp'] at *
        exact ih
      · simp [updateById, hq] at *
        exact ih

theorem mem_setPlayer {ps : List PlayerState} {p q' : PlayerState}
    (h : q' ∈ setPlayer ps p) : q' = p ∨ q' ∈ ps := by
  induction ps with
  | nil => simp [setPlayer] at h; exact Or.inl h
  | cons r rs ih =>
      by_cases hr : r.id = p.id
      · simp [setPlayer, hr] at h
        rcases h with h | h
        · exact Or.inl h
        · exact Or.inr (List.mem_cons_of_mem _ h)
      · simp [setPlayer, hr] at h
        rcases h with h | h
        · exact Or.inr (by simp [h])
        · rcases ih h with h1 | h2
          · exact Or.inl h1
          · exact Or.inr (List.mem_cons_of_mem _ h2)

/-! Specification of the closest-hit selection fold. -/

theorem selectFold_spec (f : PlayerState → Option ℚ) (l : List PlayerState) :
    ∀ (acc : Option (ℚ × PlayerState)) (d : ℚ) (p : PlayerState),
      l.foldl (selectStep f) acc = some (d, p) →
      (acc = some (d, p) ∨ (p ∈ l ∧ f p = some d)) ∧
      (∀ q ∈ l, ∀ dq, f q = some dq → d ≤ dq) ∧
      (∀ ad ap, acc = some (ad, ap) → d ≤ ad) := by
  induction l with
  | nil =>
      intro acc d p h
      simp at h
      refine ⟨Or.inl h, by simp, ?_⟩
      intro ad ap hacc
      rw [h] at hacc
      simp only [Option.some.injEq, Prod.mk.injEq] at hacc
      rw [hacc.1]
  | cons q l ih =>
      intro acc d p h
      simp only [List.foldl_cons] at h
      have hstep := ih (selectStep f acc q) d p h
      rcases hstep with ⟨hA, hB, hC⟩
      rcases hfq : f q with _ | dq
      · -- f q = none: accumulator unchanged
        have hse : selectStep f acc q = acc := by simp [selectStep, hfq]
        rw [hse] at hA hC
        refine ⟨?_, ?_, hC⟩
        · rcases hA with h1 | h2
          · exact Or.inl h1
          · exact Or.inr ⟨List.mem_cons_of_mem _ h2.1, h2.2⟩
        · intro r hr dr hfr
          rcases List.mem_cons.mp hr with h1 | h2
          · subst h1; rw [hfq] at hfr; cases hfr
          · exact hB r h2 dr hfr
      · rcases hacc : acc with _ | ⟨bd, bp⟩
        · -- acc = none, f q = some dq: new best (dq, q)
          have hse : selectStep f none q = some (dq, q) := by simp [selectStep, hfq]
          rw [hacc] at hA hC
          rw [hse] at hA hC
          have hdq : d ≤ dq := hC dq q rfl
          refine ⟨?_, ?_, ?_⟩
          · rcases hA with h1 | h2
            · simp only [Option.some.injEq, Prod.mk.injEq] at h1
              exact Or.inr ⟨by rw [← h1.2]; exact List.mem_cons_self _ _,
                by rw [← h1.2, ← h1.1]; exact hfq⟩
            · exact Or.inr ⟨List.mem_cons_of_mem _ h2.1, h2.2⟩
          · intro r hr dr hfr
            rcases List.mem_cons.mp hr with h1 | h2
            · subst h1
              rw [hfq] at hfr
              simp only [Option.some.injEq] at hfr
              rw [← hfr]
              exact hdq
            · exact hB r h2 dr hfr
          · intro ad ap hc
            cases hc
        · -- acc = some (bd, bp)
          by_cases hlt : dq < bd
          · have hse : selectStep f (some (bd, bp)) q = some (dq, q) := by
              simp [selectStep, hfq, hlt]
            rw [hacc] at hA hC
            rw [hse] at hA hC
            have hdq : d ≤ dq := hC dq q rfl
            refine ⟨?_, ?_, ?_⟩
            · rcases hA with h1 | h2
              · simp only [Option.some.injEq, Prod.mk.injEq] at h1
                exact Or.inr ⟨by rw [← h1.2]; exact List.mem_cons_self _ _,
                  by rw [← h1.2, ← h1.1]; exact hfq⟩
              · exact Or.inr ⟨List.mem_cons_of_mem _ h2.1, h2.2⟩
            · intro r hr dr hfr
              rcases List.mem_cons.mp hr with h1 | h2
              · subst h1
                rw [hfq] at hfr
                simp only [Option.some.injEq] at hfr
                rw [← hfr]
                exact hdq
              · exact hB r h2 dr hfr
            · intro ad ap hc
              simp only [Option.some.injEq, Prod.mk.injEq] at hc
              rw [← hc.1]
              exact le_trans hdq (le_of_lt hlt)
          · have hse : selectStep f (some (bd, bp)) q = some (bd, bp) := by
              simp [selectStep, hfq, hlt]
            rw [hacc] at hA hC
            rw [hse] at hA hC
            have hdb : d ≤ bd := hC bd bp rfl
            refine ⟨?_, ?_, ?_⟩
            · rcases hA with h1 | h2
              · exact Or.inl h1
              · exact Or.inr ⟨List.mem_cons_of_mem _ h2.1, h2.2⟩
            · intro r hr dr hfr
              rcases List.mem_cons.mp hr with h1 | h2
              · subst h1
                rw [hfq] at hfr
                simp only [Option.some.injEq] at hfr
                rw [← hfr]
                exact le_trans hdb (le_of_not_lt hlt)
              · exact hB r h2 dr hfr
            · intro ad ap hc
              simp only [Option.some.injEq, Prod.mk.injEq] at hc
              rw [← hc.1]
              exact hdb

theorem selectHit_spec {mode : GameMode} {players : List PlayerState}
    {ownerId : String} {origin vel : Vec3} {dt d : ℚ} {p : PlayerState}
    (h : selectHit mode players ownerId origin vel dt = some (d, p)) :
    p ∈ players ∧ hitCandidate mode players ownerId origin vel dt p = some d ∧
      ∀ q ∈ players, ∀ dq,
        hitCandidate mode players ownerId origin vel dt q = some dq → d ≤ dq := by
  have := selectFold_spec (hitCandidate mode players ownerId origin vel dt)
    players none d p h
  rcases this with ⟨hA, hB, _⟩
  rcases hA with h1 | h2
  · cases h1
  · exact ⟨h2.1, h2.2, hB⟩

/-- Eligibility facts encoded in the guards of `hitCandidate`. -/
theorem hitCandidate_eligible {mode : GameMode} {players : List PlayerState}
    {ownerId : String} {origin vel : Vec3} {dt d : ℚ} {p : PlayerState}
    (h : hitCandidate mode players ownerId origin vel dt p = some d) :
    p.isAlive = true ∧ p.id ≠ ownerId ∧
      (mode = GameMode.team → sameTeamAsOwner players ownerId p = false) := by
  rw [hitCandidate] at h
  by_cases h1 : p.isAlive = false
  · rw [if_pos h1] at h; cases h
  · rw [if_neg h1] at h
    by_cases h2 : p.id = ownerId
    · rw [if_pos h2] at h; cases h
    · rw [if_neg h2] at h
      by_cases h3 : mode = GameMode.team ∧ sameTeamAsOwner players ownerId p = true
      · rw [if_pos h3] at h; cases h
      · refine ⟨by simpa using h1, h2, ?_⟩
        intro hm
        by_contra hf
        exact h3 ⟨hm, by simpa using hf⟩

/-! Arithmetic facts about shield absorption. -/

theorem absorbShield_fst {shield damage : ℚ} (hs : 0 ≤ shield) (hd : 0 ≤ damage) :
    (absorbShield shield damage).1 = max 0 (shield - damage) := by
  by_cases h : 0 < shield
  · have h1 : (absorbShield shield damage).1 = shield - min shield damage := by
      rw [absorbShield, if_pos h]
    rw [h1]
    rcases le_total damage shield with hds | hsd
    · rw [min_eq_right hds, max_eq_right (by linarith)]
    · rw [min_eq_left hsd, max_eq_left (by linarith)]
      linarith
  · have hz : shield = 0 := le_antisymm (le_of_not_lt h) hs
    have h1 : (absorbShield shield damage).1 = shield := by
      rw [absorbShield, if_neg h]
    rw [h1, hz, max_eq_left (by linarith)]

theorem absorbShield_snd {shield damage : ℚ} (hs : 0 ≤ shield) (hd : 0 ≤ damage) :
    (absorbShield shield damage).2 = damage - min shield damage := by
  by_cases h : 0 < shield
  · rw [absorbShield, if_pos h]
  · have hz : shield = 0 := le_antisymm (le_of_not_lt h) hs
    have h1 : (absorbShield shield damage).2 = damage := by
      rw [absorbShield, if_neg h]
    rw [h1, hz, min_eq_left hd]
    simp

theorem absorbShield_snd_nonneg {shield damage : ℚ} (hd : 0 ≤ damage) :
    0 ≤ (absorbShield shield damage).2 := by
  by_cases h : 0 < shield
  · have h1 : (absorbShield shield damage).2 = damage - min shield damage := by
      rw [absorbShield, if_pos h]
    rw [h1]
    have := min_le_right shield damage
    linarith
  · have h1 : (absorbShield shield damage).2 = damage := by
      rw [absorbShield, if_neg h]
    rw [h1]
    exact hd

/-! Branch characterisations of `resolveProjectile`. -/

theorem resolveProjectile_no_hit {mode : GameMode} {now dt : ℚ}
    {ps : List PlayerState} {sc : TeamScores} {proj : ProjectileState}
    (hsel : selectHit mode ps proj.ownerId proj.position proj.velocity dt = none) :
    (resolveProjectile mode now dt ps sc proj).players = ps ∧
    (resolveProjectile mode now dt ps sc proj).scores = sc ∧
    (resolveProjectile mode now dt ps sc proj).hits = [] ∧
    (resolveProjectile mode now dt ps sc proj).kills = [] ∧
    (resolveProjectile mode now dt ps sc proj).proj.damage = proj.damage := by
  simp only [resolveProjectile, hsel]
  split_ifs <;> exact ⟨rfl, rfl, rfl, rfl, rfl⟩

theorem resolveProjectile_hit_nonlethal {mode : GameMode} {now dt d : ℚ}
    {ps : List PlayerState} {sc : TeamScores} {proj : ProjectileState}
    {hp : PlayerState}
    (hsel : selectHit mode ps proj.ownerId proj.position proj.velocity dt = some (d, hp))
    (hnl : ¬ hp.health - (absorbShield hp.shield proj.damage).2 ≤ 0) :
    resolveProjectile mode now dt ps sc proj =
      ⟨updateById ps hp.id (nonlethalVictim hp proj.damage), sc,
       [⟨hp.id, proj.ownerId, proj.damage,
         hp.health - (absorbShield hp.shield proj.damage).2⟩],
       [], proj, true⟩ := by
  simp only [resolveProjectile, hsel]
  rw [if_neg hnl]

theorem resolveProjectile_hit_lethal_attacker {mode : GameMode} {now dt d : ℚ}
    {ps : List PlayerState} {sc : TeamScores} {proj : ProjectileState}
    {hp a : PlayerState}
    (hsel : selectHit mode ps proj.ownerId proj.position proj.velocity dt = some (d, hp))
    (hl : hp.health - (absorbShield hp.shield proj.damage).2 ≤ 0)
    (hatt : findPlayer (updateById ps hp.id (lethalVictim hp proj.damage))
      proj.ownerId = some a) :
    resolveProjectile mode now dt ps sc proj =
      ⟨updateById (updateById ps hp.id (lethalVictim hp proj.damage)) a.id
         (bumpAttacker a),
       bumpTeamScore mode sc a.team,
       [⟨hp.id, proj.ownerId, proj.damage,
         hp.health - (absorbShield hp.shield proj.damage).2⟩],
       [⟨hp.id, proj.ownerId, hp.name, a.name, proj.type, hp.position⟩],
       proj, true⟩ := by
  simp only [resolveProjectile, hsel]
  rw [if_pos hl]
  simp only [hatt]

theorem resolveProjectile_hit_lethal_no_attacker {mode : GameMode} {now dt d : ℚ}
    {ps : List PlayerState} {sc : TeamScores} {proj : ProjectileState}
    {hp : PlayerState}
    (hsel : selectHit mode ps proj.ownerId proj.position proj.velocity dt = some (d, hp))
    (hl : hp.health - (absorbShield hp.shield proj.damage).2 ≤ 0)
    (hatt : findPlayer (updateById ps hp.id (lethalVictim hp proj.damage))
      proj.ownerId = none) :
    resolveProjectile mode now dt ps sc proj =
      ⟨updateById ps hp.id (lethalVictim hp proj.damage), sc,
       [⟨hp.id, proj.ownerId, proj.damage,
         hp.health - (absorbShield hp.shield proj.damage).2⟩],
       [⟨hp.id, proj.ownerId, hp.name, "Unknown", proj.type, hp.position⟩],
       proj, true⟩ := by
  simp only [resolveProjectile, hsel]
  rw [if_pos hl]
  simp only [hatt]

/-- Every hit event of the resolution of one projectile names the selected
target and carries the projectile's full damage and the unclamped
post-absorption health. -/
theorem resolveProjectile_hits_shape {mode : GameMode} {now dt : ℚ}
    {ps : List PlayerState} {sc : TeamScores} {proj : ProjectileState}
    {h : HitResult}
    (hh : h ∈ (resolveProjectile mode now dt ps sc proj).hits) :
    ∃ d hp, selectHit mode ps proj.ownerId proj.position proj.velocity dt = some (d, hp) ∧
      h = ⟨hp.id, proj.ownerId, proj.damage,
        hp.health - (absorbShield hp.shield proj.damage).2⟩ := by
  rcases hsel : selectHit mode ps proj.ownerId proj.position proj.velocity dt
    with _ | ⟨d, hp⟩
  · rw [(resolveProjectile_no_hit hsel).2.2.1] at hh
    simp at hh
  · refine ⟨d, hp, rfl, ?_⟩
    by_cases hl : hp.health - (absorbShield hp.shield proj.damage).2 ≤ 0
    · rcases hatt : findPlayer (updateById ps hp.id (lethalVictim hp proj.damage))
        proj.ownerId with _ | a
      · rw [resolveProjectile_hit_lethal_no_attacker hsel hl hatt] at hh
        simpa using hh
      · rw [resolveProjectile_hit_lethal_attacker hsel hl hatt] at hh
        simpa using hh
    · rw [resolveProjectile_hit_nonlethal hsel hl] at hh
      simpa using hh

/-- Helper: a list in which no entry carries the id yields no lookup. -/
theorem findPlayer_eq_none {ps : List PlayerState} {i : String}
    (h : ∀ p ∈ ps, p.id ≠ i) : findPlayer ps i = none := by
  induction ps with
  | nil => rfl
  | cons q qs ih =>
      simp only [findPlayer, if_neg (h q (List.mem_cons_self _ _))]
      exact ih fun p hp => h p (List.mem_cons_of_mem _ hp)

/-- C1: among all living, non-owner (and, in team mode, non-teammate)
players within the hit radius of the projectile's swept segment — exactly
the players on which `hitCandidate` returns a value — the player recorded
as hit by the selection scan is within the radius himself and has the
smallest clamped projection along the segment, whatever the iteration
order of the store (the player list is universally quantified). -/
theorem c1_swept_hit_min_projection (mode : GameMode) (players : List PlayerState)
    (ownerId : String) (origin vel : Vec3) (dt d : ℚ) (p : PlayerState)
    (hsel : selectHit mode players ownerId origin vel dt = some (d, p)) :
    p ∈ players ∧ hitCandidate mode players ownerId origin vel dt p = some d ∧
      ∀ q ∈ players, ∀ dq,
        hitCandidate mode players ownerId origin vel dt q = some dq → d ≤ dq :=
  selectHit_spec hsel

/-- Two in-radius targets, the farther one ("C") iterated first. -/
def c1Players : List PlayerState :=
  [mkTestPlayer "C" ⟨0, 0, 100⟩ 100, mkTestPlayer "B" ⟨0, 0, 50⟩ 100]

/-- Witness for C1: with target C (projection clamped to 12000, scaled)
iterated before target B (projection 10000, scaled), the selection picks
B, the smaller projection. -/
theorem c1_swept_hit_min_projection_witness :
    mkTestPlayer "B" ⟨0, 0, 50⟩ 100 ∈ c1Players ∧
    hitCandidate GameMode.ffa c1Players "O" ⟨0, 0, 0⟩ ⟨0, 0, 200⟩ (3 / 10)
      (mkTestPlayer "B" ⟨0, 0, 50⟩ 100) = some 10000 ∧
    ∀ q ∈ c1Players, ∀ dq,
      hitCandidate GameMode.ffa c1Players "O" ⟨0, 0, 0⟩ ⟨0, 0, 200⟩ (3 / 10) q =
        some dq → 10000 ≤ dq :=
  c1_swept_hit_min_projection GameMode.ffa c1Players "O" ⟨0, 0, 0⟩ ⟨0, 0, 200⟩
    (3 / 10) 10000 (mkTestPlayer "B" ⟨0, 0, 50⟩ 100)
    (by norm_num +decide [selectHit, c1Players, mkTestPlayer, selectStep,
      hitCandidate, sameTeamAsOwner, findPlayer, dot, vsub, vadd, smul, distSq,
      hitRadius, List.foldl, abs_of_nonneg])

/-- C2: one projectile hit consumes shield before health: afterwards the
stored shield is `max 0 (shield - damage)` and the stored health is
`max 0 (health - (damage - min shield damage))`. -/
theorem c2_shield_before_health (mode : GameMode) (now dt : ℚ)
    (ps : List PlayerState) (sc : TeamScores) (proj : ProjectileState)
    (h : HitResult) (v : PlayerState)
    (hnd : List.Nodup (ps.map fun p => p.id))
    (hh : h ∈ (resolveProjectile mode now dt ps sc proj).hits)
    (hv : findPlayer ps h.targetId = some v)
    (hs : 0 ≤ v.shield) (hhp : 0 < v.health) (hd : 0 ≤ proj.damage) :
    ∃ v', findPlayer (resolveProjectile mode now dt ps sc proj).players h.targetId =
        some v' ∧
      v'.shield = max 0 (v.shield - proj.damage) ∧
      v'.health = max 0 (v.health - (proj.damage - min v.shield proj.damage)) := by
  obtain ⟨d, hp, hsel, hhe⟩ := resolveProjectile_hits_shape hh
  obtain ⟨hmem, hcand, _⟩ := selectHit_spec hsel
  have htid : h.targetId = hp.id := by rw [hhe]
  rw [htid] at hv
  have hfhp : findPlayer ps hp.id = some hp := findPlayer_of_mem_nodup hnd hmem
  have hvhp : v = hp := by rw [hfhp] at hv; exact (Option.some.injEq _ _ ▸ hv).symm
  subst hvhp
  obtain ⟨_, hneq, _⟩ := hitCandidate_eligible hcand
  have hsnd : (absorbShield v.shield proj.damage).2 =
      proj.damage - min v.shield proj.damage := absorbShield_snd hs hd
  by_cases hl : v.health - (absorbShield v.shield proj.damage).2 ≤ 0
  · rcases hatt : findPlayer (updateById ps v.id (lethalVictim v proj.damage))
        proj.ownerId with _ | a
    · rw [resolveProjectile_hit_lethal_no_attacker hsel hl hatt]
      refine ⟨lethalVictim v proj.damage, ?_, ?_, ?_⟩
      · rw [htid]
        exact findPlayer_updateById_self rfl hfhp
      · exact absorbShield_fst hs hd
      · rw [← hsnd]
        simp only [lethalVictim]
        exact (max_eq_left (by linarith)).symm
    · rw [resolveProjectile_hit_lethal_attacker hsel hl hatt]
      have haid : a.id = proj.ownerId := findPlayer_id hatt
      refine ⟨lethalVictim v proj.damage, ?_, ?_, ?_⟩
      · rw [htid]
        have h1 : findPlayer (updateById (updateById ps v.id
              (lethalVictim v proj.damage)) a.id (bumpAttacker a)) v.id =
            findPlayer (updateById ps v.id (lethalVictim v proj.damage)) v.id :=
          findPlayer_updateById_ne (show (bumpAttacker a).id = a.id from rfl)
            (by rw [haid]; exact hneq)
        rw [h1]
        exact findPlayer_updateById_self rfl hfhp
      · exact absorbShield_fst hs hd
      · rw [← hsnd]
        simp only [lethalVictim]
        exact (max_eq_left (by linarith)).symm
  · rw [resolveProjectile_hit_nonlethal hsel hl]
    refine ⟨nonlethalVictim v proj.damage, ?_, ?_, ?_⟩
    · rw [htid]
      exact findPlayer_updateById_self rfl hfhp
    · exact absorbShield_fst hs hd
    · show v.health - (absorbShield v.shield proj.damage).2 = _
      rw [← hsnd]
      exact (max_eq_right (by linarith)).symm

/-- Target for the C2 witness scenario. -/
def c2Players : List PlayerState := [mkTestPlayer "B" ⟨0, 0, 50⟩ 100]

/-- Laser projectile owned by an absent player A, flying at B. -/
def c2Proj : ProjectileState :=
  ⟨"proj_0", "A", ProjectileType.laser, ⟨0, 0, 0⟩, ⟨0, 0, 200⟩, 15, 0⟩

/-- Witness for C2: the hit on a shield-less, full-health target leaves
shield 0 and health 85 in the store. -/
theorem c2_shield_before_health_witness :
    ∃ v', findPlayer (resolveProjectile GameMode.ffa 0 (3 / 10) c2Players ⟨0, 0⟩
        c2Proj).players "B" = some v' ∧
      v'.shield = max 0 ((0 : ℚ) - 15) ∧
      v'.health = max 0 ((100 : ℚ) - (15 - min 0 15)) :=
  c2_shield_before_health GameMode.ffa 0 (3 / 10) c2Players ⟨0, 0⟩ c2Proj
    ⟨"B", "A", 15, 85⟩ (mkTestPlayer "B" ⟨0, 0, 50⟩ 100)
    (by decide)
    (by norm_num +decide [resolveProjectile, selectHit, c2Players, c2Proj,
      mkTestPlayer, selectStep, hitCandidate, sameTeamAsOwner, findPlayer, dot,
      vsub, vadd, smul, distSq, hitRadius, List.foldl, abs_of_nonneg,
      absorbShield, nonlethalVictim, updateById])
    (by norm_num +decide [findPlayer, c2Players, mkTestPlayer])
    (by norm_num [mkTestPlayer])
    (by norm_num [mkTestPlayer])
    (by norm_num [c2Proj])

/-- C6: an operation referencing an absent player id is a silent no-op
(`playerShoot` and `respawnPlayer` return `null`), and the same holds for
`updatePlayerInput` and `playerShoot` on a dead player. -/
theorem c6_unknown_entity_noop :
    (∀ (st : GameState) (pid : String) (input : PlayerInput) (si : ShootInput)
      (now : ℚ) (r : Nat),
      findPlayer st.players pid = none →
        updatePlayerInput st pid input now = st ∧
        playerShoot st pid si now = (st, none) ∧
        respawnPlayer st pid now r = (st, none)) ∧
    (∀ (st : GameState) (pid : String) (input : PlayerInput) (si : ShootInput)
      (now : ℚ) (p : PlayerState),
      findPlayer st.players pid = some p → p.isAlive = false →
        updatePlayerInput st pid input now = st ∧
        playerShoot st pid si now = (st, none)) := by
  constructor
  · intro st pid input si now r hn
    refine ⟨?_, ?_, ?_⟩ <;>
      simp [updatePlayerInput, playerShoot, respawnPlayer, hn]
  · intro st pid input si now p hp hd
    constructor <;> simp [updatePlayerInput, playerShoot, hp, hd]

/-- A state with one dead player. -/
def c6DeadState : GameState :=
  { players := [{ mkTestPlayer "d" ⟨0, 0, 0⟩ 0 with isAlive := false }],
    projectiles := [], powerUps := [], gameMode := GameMode.ffa,
    teamScores := ⟨0, 0⟩, projectileIdCounter := 0 }

/-- A neutral input record. -/
def c6Input : PlayerInput := ⟨1, 0, 0, 0, 0, 0, false, 0⟩

/-- A neutral shoot record. -/
def c6Shoot : ShootInput := ⟨ProjectileType.laser, ⟨0, 0, 1⟩⟩

/-- Witness for C6: on the empty store every operation is a no-op for the
unknown id "x", and on a store holding only a dead player the input and
shoot operations are no-ops as well. -/
theorem c6_unknown_entity_noop_witness :
    (updatePlayerInput (GameState.init GameMode.ffa) "x" c6Input 0 =
        GameState.init GameMode.ffa ∧
      playerShoot (GameState.init GameMode.ffa) "x" c6Shoot 0 =
        (GameState.init GameMode.ffa, none) ∧
      respawnPlayer (GameState.init GameMode.ffa) "x" 0 0 =
        (GameState.init GameMode.ffa, none)) ∧
    (updatePlayerInput c6DeadState "d" c6Input 0 = c6DeadState ∧
      playerShoot c6DeadState "d" c6Shoot 0 = (c6DeadState, none)) :=
  ⟨c6_unknown_entity_noop.1 (GameState.init GameMode.ffa) "x" c6Input c6Shoot 0 0
      (by decide),
   c6_unknown_entity_noop.2 c6DeadState "d" c6Input c6Shoot 0
      ({ mkTestPlayer "d" ⟨0, 0, 0⟩ 0 with isAlive := false })
      (by decide) (by decide)⟩

/-- C8: `removePlayer` removes the id from the store and purges every
projectile owned by it, keeps every other player and projectile, and
leaves power-ups, team scores and mode unchanged. -/
theorem c8_remove_player_purges (st : GameState) (i : String) :
    (∀ p ∈ (removePlayer st i).players, p.id ≠ i) ∧
    findPlayer (removePlayer st i).players i = none ∧
    (∀ pr ∈ (removePlayer st i).projectiles, pr.ownerId ≠ i) ∧
    (∀ p ∈ st.players, p.id ≠ i → p ∈ (removePlayer st i).players) ∧
    (∀ pr ∈ st.projectiles, pr.ownerId ≠ i → pr ∈ (removePlayer st i).projectiles) ∧
    (removePlayer st i).powerUps = st.powerUps ∧
    (removePlayer st i).teamScores = st.teamScores ∧
    (removePlayer st i).gameMode = st.gameMode := by
  have hpl : ∀ p ∈ (removePlayer st i).players, p.id ≠ i := by
    intro p hp
    have := (List.mem_filter.mp hp).2
    simpa using this
  refine ⟨hpl, findPlayer_eq_none hpl, ?_, ?_, ?_, rfl, rfl, rfl⟩
  · intro pr hpr
    have := (List.mem_filter.mp hpr).2
    simpa using this
  · intro p hp hne
    exact List.mem_filter.mpr ⟨hp, by simpa using hne⟩
  · intro pr hpr hne
    exact List.mem_filter.mpr ⟨hpr, by simpa using hne⟩

/-- A two-player state with projectiles owned by each, for the C8 witness. -/
def c8State : GameState :=
  { players := [mkTestPlayer "A" ⟨0, 0, 0⟩ 100, mkTestPlayer "B" ⟨5, 0, 0⟩ 100],
    projectiles := [⟨"proj_0", "A", ProjectileType.laser, ⟨0, 0, 0⟩, ⟨0, 0, 1⟩, 15, 0⟩,
                    ⟨"proj_1", "B", ProjectileType.laser, ⟨5, 0, 0⟩, ⟨0, 0, 1⟩, 15, 0⟩],
    powerUps := initPowerUps, gameMode := GameMode.ffa,
    teamScores := ⟨0, 0⟩, projectileIdCounter := 2 }

/-- Witness for C8 at a concrete two-player, two-projectile state. -/
theorem c8_remove_player_purges_witness :
    (∀ p ∈ (removePlayer c8State "A").players, p.id ≠ "A") ∧
    findPlayer (removePlayer c8State "A").players "A" = none ∧
    (∀ pr ∈ (removePlayer c8State "A").projectiles, pr.ownerId ≠ "A") ∧
    (∀ p ∈ c8State.players, p.id ≠ "A" → p ∈ (removePlayer c8State "A").players) ∧
    (∀ pr ∈ c8State.projectiles, pr.ownerId ≠ "A" →
      pr ∈ (removePlayer c8State "A").projectiles) ∧
    (removePlayer c8State "A").powerUps = c8State.powerUps ∧
    (removePlayer c8State "A").teamScores = c8State.teamScores ∧
    (removePlayer c8State "A").gameMode = c8State.gameMode :=
  c8_remove_player_purges c8State "A"

/-- C10: the `newHealth` field of a hit event is the unclamped post-absorption
health — strictly negative whenever the post-shield damage exceeds the
remaining health — while the stored health is clamped to 0, and the
event's `damage` field always carries the projectile's full damage. -/
theorem c10_hit_event_unclamped (mode : GameMode) (now dt : ℚ)
    (ps : List PlayerState) (sc : TeamScores) (proj : ProjectileState)
    (hnd : List.Nodup (ps.map fun p => p.id)) :
    (∀ h ∈ (resolveProjectile mode now dt ps sc proj).hits,
      h.damage = proj.damage) ∧
    (∀ h ∈ (resolveProjectile mode now dt ps sc proj).hits, ∀ v,
      findPlayer ps h.targetId = some v → 0 ≤ v.shield → 0 ≤ proj.damage →
      v.health < proj.damage - min v.shield proj.damage →
      h.newHealth = v.health - (proj.damage - min v.shield proj.damage) ∧
      h.newHealth < 0 ∧
      ∃ v', findPlayer (resolveProjectile mode now dt ps sc proj).players
          h.targetId = some v' ∧ v'.health = 0) := by
  constructor
  · intro h hh
    obtain ⟨d, hp, hsel, hhe⟩ := resolveProjectile_hits_shape hh
    rw [hhe]
  · intro h hh v hv hs hd hex
    obtain ⟨d, hp, hsel, hhe⟩ := resolveProjectile_hits_shape hh
    obtain ⟨hmem, hcand, _⟩ := selectHit_spec hsel
    obtain ⟨_, hneq, _⟩ := hitCandidate_eligible hcand
    have htid : h.targetId = hp.id := by rw [hhe]
    rw [htid] at hv
    have hfhp : findPlayer ps hp.id = some hp := findPlayer_of_mem_nodup hnd hmem
    have hvhp : v = hp := by rw [hfhp] at hv; exact (Option.some.injEq _ _ ▸ hv).symm
    subst hvhp
    have hsnd : (absorbShield v.shield proj.damage).2 =
        proj.damage - min v.shield proj.damage := absorbShield_snd hs hd
    have hnewh : h.newHealth = v.health - (proj.damage - min v.shield proj.damage) := by
      rw [hhe]
      show v.health - (absorbShield v.shield proj.damage).2 = _
      rw [hsnd]
    have hneg : h.newHealth < 0 := by rw [hnewh]; linarith
    refine ⟨hnewh, hneg, ?_⟩
    have hl : v.health - (absorbShield v.shield proj.damage).2 ≤ 0 := by
      rw [hsnd]; linarith
    have hownne : proj.ownerId ≠ v.id := fun he => hneq he.symm
    rcases hatt : findPlayer (updateById ps v.id (lethalVictim v proj.damage))
        proj.ownerId with _ | a
    · rw [resolveProjectile_hit_lethal_no_attacker hsel hl hatt, htid]
      exact ⟨lethalVictim v proj.damage, findPlayer_updateById_self rfl hfhp, rfl⟩
    · rw [resolveProjectile_hit_lethal_attacker hsel hl hatt, htid]
      have haid : a.id = proj.ownerId := findPlayer_id hatt
      have h1 : findPlayer (updateById (updateById ps v.id
            (lethalVictim v proj.damage)) a.id (bumpAttacker a)) v.id =
          findPlayer (updateById ps v.id (lethalVictim v proj.damage)) v.id :=
        findPlayer_updateById_ne (show (bumpAttacker a).id = a.id from rfl)
          (by rw [haid]; exact hneq)
      rw [h1]
      exact ⟨lethalVictim v proj.damage, findPlayer_updateById_self rfl hfhp, rfl⟩

/-- Shielded low-health target for the C10 witness. -/
def c10Players : List PlayerState :=
  [{ mkTestPlayer "B" ⟨0, 0, 50⟩ 10 with shield := 5 }]

/-- Missile projectile (damage 40) owned by absent player A. -/
def c10Proj : ProjectileState :=
  ⟨"proj_1", "A", ProjectileType.missile, ⟨0, 0, 0⟩, ⟨0, 0, 200⟩, 40, 0⟩

/-- Witness for C10: shield 5, health 10, damage 40 — the event reports
newHealth −25 and full damage 40 while the stored health is 0. -/
theorem c10_hit_event_unclamped_witness :
    (∀ h ∈ (resolveProjectile GameMode.ffa 0 (3 / 10) c10Players ⟨0, 0⟩
        c10Proj).hits, h.damage = c10Proj.damage) ∧
    (∀ h ∈ (resolveProjectile GameMode.ffa 0 (3 / 10) c10Players ⟨0, 0⟩
        c10Proj).hits, ∀ v,
      findPlayer c10Players h.targetId = some v → 0 ≤ v.shield →
      0 ≤ c10Proj.damage →
      v.health < c10Proj.damage - min v.shield c10Proj.damage →
      h.newHealth = v.health - (c10Proj.damage - min v.shield c10Proj.damage) ∧
      h.newHealth < 0 ∧
      ∃ v', findPlayer (resolveProjectile GameMode.ffa 0 (3 / 10) c10Players
          ⟨0, 0⟩ c10Proj).players h.targetId = some v' ∧ v'.health = 0) :=
  c10_hit_event_unclamped GameMode.ffa 0 (3 / 10) c10Players ⟨0, 0⟩ c10Proj
    (by decide)

/-- C7: a single lethal hit increments the victim's deaths by exactly 1,
the attacker's kills by 1 and score by 100, bumps exactly the attacker's
team score in team mode, emits exactly one kill event, and touches no
other player. -/
theorem c7_kill_bookkeeping (mode : GameMode) (now dt : ℚ)
    (ps : List PlayerState) (sc : TeamScores) (proj : ProjectileState)
    (h : HitResult)
    (hnd : List.Nodup (ps.map fun p => p.id))
    (hh : h ∈ (resolveProjectile mode now dt ps sc proj).hits)
    (hl : h.newHealth ≤ 0) :
    (resolveProjectile mode now dt ps sc proj).kills.length = 1 ∧
    (∀ v, findPlayer ps h.targetId = some v →
      ∃ v', findPlayer (resolveProjectile mode now dt ps sc proj).players
          h.targetId = some v' ∧
        v'.deaths = v.deaths + 1 ∧ v'.kills = v.kills ∧ v'.score = v.score) ∧
    (∀ a, findPlayer ps h.attackerId = some a →
      ∃ a', findPlayer (resolveProjectile mode now dt ps sc proj).players
          h.attackerId = some a' ∧
        a'.kills = a.kills + 1 ∧ a'.score = a.score + 100 ∧ a'.deaths = a.deaths) ∧
    (∀ a, findPlayer ps h.attackerId = some a → mode = GameMode.team →
      (a.team = some Team.red →
        (resolveProjectile mode now dt ps sc proj).scores = ⟨sc.red + 1, sc.blue⟩) ∧
      (a.team = some Team.blue →
        (resolveProjectile mode now dt ps sc proj).scores = ⟨sc.red, sc.blue + 1⟩)) ∧
    (mode ≠ GameMode.team →
      (resolveProjectile mode now dt ps sc proj).scores = sc) ∧
    (∀ q ∈ ps, q.id ≠ h.targetId → q.id ≠ h.attackerId →
      q ∈ (resolveProjectile mode now dt ps sc proj).players) := by
  obtain ⟨d, hp, hsel, hhe⟩ := resolveProjectile_hits_shape hh
  obtain ⟨hmem, hcand, _⟩ := selectHit_spec hsel
  obtain ⟨_, hneq, _⟩ := hitCandidate_eligible hcand
  have htid : h.targetId = hp.id := by rw [hhe]
  have hatk : h.attackerId = proj.ownerId := by rw [hhe]
  have hl' : hp.health - (absorbShield hp.shield proj.damage).2 ≤ 0 := by
    have : h.newHealth = hp.health - (absorbShield hp.shield proj.damage).2 := by
      rw [hhe]
    rw [← this]
    exact hl
  have hownne : proj.ownerId ≠ hp.id := fun he => hneq he.symm
  have hfhp : findPlayer ps hp.id = some hp := findPlayer_of_mem_nodup hnd hmem
  rcases hfa : findPlayer ps proj.ownerId with _ | a
  · -- attacker not in store
    have hatt : findPlayer (updateById ps hp.id (lethalVictim hp proj.damage))
        proj.ownerId = none :=
      (findPlayer_updateById_ne
        (show (lethalVictim hp proj.damage).id = hp.id from rfl) hownne).trans hfa
    rw [resolveProjectile_hit_lethal_no_attacker hsel hl' hatt]
    refine ⟨rfl, ?_, ?_, ?_, fun _ => rfl, ?_⟩
    · intro v hv
      rw [htid] at hv ⊢
      rw [hfhp] at hv
      have hvhp : v = hp := (Option.some.injEq _ _ ▸ hv).symm
      subst hvhp
      exact ⟨lethalVictim v proj.damage, findPlayer_updateById_self rfl hfhp,
        rfl, rfl, rfl⟩
    · intro a ha
      rw [hatk, hfa] at ha
      cases ha
    · intro a ha
      rw [hatk, hfa] at ha
      cases ha
    · intro q hq h1 h2
      rw [htid] at h1
      exact mem_updateById_of_ne hq h1
  · -- attacker found
    have haid : a.id = proj.ownerId := findPlayer_id hfa
    have hatt : findPlayer (updateById ps hp.id (lethalVictim hp proj.damage))
        proj.ownerId = some a :=
      (findPlayer_updateById_ne
        (show (lethalVictim hp proj.damage).id = hp.id from rfl) hownne).trans hfa
    rw [resolveProjectile_hit_lethal_attacker hsel hl' hatt]
    have hpa : hp.id ≠ a.id := by rw [haid]; exact hneq
    refine ⟨rfl, ?_, ?_, ?_, ?_, ?_⟩
    · intro v hv
      rw [htid] at hv ⊢
      rw [hfhp] at hv
      have hvhp : v = hp := (Option.some.injEq _ _ ▸ hv).symm
      subst hvhp
      have h1 : findPlayer (updateById (updateById ps v.id
            (lethalVictim v proj.damage)) a.id (bumpAttacker a)) v.id =
          findPlayer (updateById ps v.id (lethalVictim v proj.damage)) v.id :=
        findPlayer_updateById_ne (show (bumpAttacker a).id = a.id from rfl) hpa
      rw [h1]
      exact ⟨lethalVictim v proj.damage, findPlayer_updateById_self rfl hfhp,
        rfl, rfl, rfl⟩
    · intro a0 ha0
      rw [hatk] at ha0 ⊢
      rw [hfa] at ha0
      have ha0a : a0 = a := (Option.some.injEq _ _ ▸ ha0).symm
      subst ha0a
      rw [← haid]
      have h2 : findPlayer (updateById ps hp.id (lethalVictim hp proj.damage))
          a0.id = some a0 := by rw [haid]; exact hatt
      exact ⟨bumpAttacker a0,
        findPlayer_updateById_self (show (bumpAttacker a0).id = a0.id from rfl) h2,
        rfl, rfl, rfl⟩
    · intro a0 ha0 hm
      rw [hatk] at ha0
      rw [hfa] at ha0
      have ha0a : a0 = a := (Option.some.injEq _ _ ▸ ha0).symm
      subst ha0a
      constructor
      · intro ht
        simp [bumpTeamScore, hm, ht]
      · intro ht
        simp [bumpTeamScore, hm, ht]
    · intro hm
      simp [bumpTeamScore, hm]
    · intro q hq h1 h2
      rw [htid] at h1
      rw [hatk] at h2
      exact mem_updateById_of_ne (mem_updateById_of_ne hq h1)
        (by rw [haid]; exact h2)

/-- Team-mode pair for the C7 witness: red attacker A, blue target B with
10 health. -/
def c7Players : List PlayerState :=
  [{ mkTestPlayer "A" ⟨0, 0, 0⟩ 100 with team := some Team.red },
   { mkTestPlayer "B" ⟨0, 0, 50⟩ 10 with team := some Team.blue }]

/-- Missile owned by A flying at B. -/
def c7Proj : ProjectileState :=
  ⟨"proj_2", "A", ProjectileType.missile, ⟨0, 0, 0⟩, ⟨0, 0, 200⟩, 40, 0⟩

/-- Witness for C7 with a concrete lethal team-mode hit. -/
theorem c7_kill_bookkeeping_witness :
    (resolveProjectile GameMode.team 0 (3 / 10) c7Players ⟨0, 0⟩ c7Proj).kills.length = 1 ∧
    (∀ v, findPlayer c7Players (⟨"B", "A", 40, -30⟩ : HitResult).targetId = some v →
      ∃ v', findPlayer (resolveProjectile GameMode.team 0 (3 / 10) c7Players
          ⟨0, 0⟩ c7Proj).players (⟨"B", "A", 40, -30⟩ : HitResult).targetId = some v' ∧
        v'.deaths = v.deaths + 1 ∧ v'.kills = v.kills ∧ v'.score = v.score) ∧
    (∀ a, findPlayer c7Players (⟨"B", "A", 40, -30⟩ : HitResult).attackerId = some a →
      ∃ a', findPlayer (resolveProjectile GameMode.team 0 (3 / 10) c7Players
          ⟨0, 0⟩ c7Proj).players (⟨"B", "A", 40, -30⟩ : HitResult).attackerId = some a' ∧
        a'.kills = a.kills + 1 ∧ a'.score = a.score + 100 ∧ a'.deaths = a.deaths) ∧
    (∀ a, findPlayer c7Players (⟨"B", "A", 40, -30⟩ : HitResult).attackerId = some a →
      GameMode.team = GameMode.team →
      (a.team = some Team.red →
        (resolveProjectile GameMode.team 0 (3 / 10) c7Players ⟨0, 0⟩ c7Proj).scores =
          ⟨(0 : ℚ) + 1, 0⟩) ∧
      (a.team = some Team.blue →
        (resolveProjectile GameMode.team 0 (3 / 10) c7Players ⟨0, 0⟩ c7Proj).scores =
          ⟨0, (0 : ℚ) + 1⟩)) ∧
    (GameMode.team ≠ GameMode.team →
      (resolveProjectile GameMode.team 0 (3 / 10) c7Players ⟨0, 0⟩ c7Proj).scores =
        ⟨0, 0⟩) ∧
    (∀ q ∈ c7Players, q.id ≠ (⟨"B", "A", 40, -30⟩ : HitResult).targetId →
      q.id ≠ (⟨"B", "A", 40, -30⟩ : HitResult).attackerId →
      q ∈ (resolveProjectile GameMode.team 0 (3 / 10) c7Players ⟨0, 0⟩
        c7Proj).players) :=
  c7_kill_bookkeeping GameMode.team 0 (3 / 10) c7Players ⟨0, 0⟩ c7Proj
    ⟨"B", "A", 40, -30⟩ (by decide)
    (by norm_num +decide [resolveProjectile, selectHit, c7Players, c7Proj,
      mkTestPlayer, selectStep, hitCandidate, sameTeamAsOwner, findPlayer, dot,
      vsub, vadd, smul, distSq, hitRadius, List.foldl, abs_of_nonneg,
      absorbShield, lethalVictim, bumpAttacker, bumpTeamScore, updateById])
    (by norm_num)

/-! C9: the end-to-end laser scenario. -/

/-- Player A at the origin and a stationary full-health player B at
`(0,0,50)`. -/
def c9State : GameState :=
  { players := [mkTestPlayer "A" ⟨0, 0, 0⟩ 100, mkTestPlayer "B" ⟨0, 0, 50⟩ 100],
    projectiles := [], powerUps := [], gameMode := GameMode.ffa,
    teamScores := ⟨0, 0⟩, projectileIdCounter := 0 }

/-- The state after A fires a laser straight at B. -/
def c9Shot : GameState :=
  (playerShoot c9State "A" ⟨ProjectileType.laser, ⟨0, 0, 1⟩⟩ 0).1

/-- C9: A fires a laser (speed 200, damage 15) in direction `(0,0,1)` at
B at `(0,0,50)`; the spawned projectile's swept segment for `dt = 0.3`
runs from `(0,0,0)` to `(0,0,60)`, and after one tick B is hit for 15
(health 85, still alive), exactly one hit event is emitted, and the
projectile is removed. -/
theorem c9_end_to_end_laser :
    c9Shot.projectiles =
      [⟨"proj_0", "A", ProjectileType.laser, ⟨0, 0, 0⟩, ⟨0, 0, 200⟩, 15, 0⟩] ∧
    (∀ pr ∈ c9Shot.projectiles,
      pr.position = ⟨0, 0, 0⟩ ∧ vadd pr.position (smul (3 / 10) pr.velocity) = ⟨0, 0, 60⟩) ∧
    (update 0 (3 / 10) c9Shot).2.1 = [⟨"B", "A", 15, 85⟩] ∧
    (update 0 (3 / 10) c9Shot).1.projectiles = [] ∧
    findPlayer (update 0 (3 / 10) c9Shot).1.players "B" =
      some { mkTestPlayer "B" ⟨0, 0, 50⟩ 100 with health := 85 } ∧
    (∀ p ∈ (update 0 (3 / 10) c9Shot).1.players, p.id = "B" → p.isAlive = true) := by
  refine ⟨?_, ?_, ?_, ?_, ?_, ?_⟩ <;>
    norm_num +decide [update, c9Shot, c9State, playerShoot, mkTestPlayer,
      combatStep, resolveProjectile, selectHit, selectStep, hitCandidate,
      sameTeamAsOwner, findPlayer, dot, vsub, vadd, smul, distSq, hitRadius,
      List.foldl, abs_of_nonneg, absorbShield, nonlethalVictim, updateById,
      movePlayer, clampCoord, WORLD_SIZE, PROJECTILE_TTL, pickupStep,
      collectPowerUp, LASER_SPEED, LASER_DAMAGE]

/-! C3: simultaneous power-up pickup.  The source's inner player loop
neither breaks nor re-checks `isActive`, so every overlapping living
player collects: the claim's "exactly one pickup" is refuted and the
all-collect behaviour is proved instead. -/

/-- Two living players both within pickup radius of `powerup_0`. -/
def c3State : GameState :=
  { players := [mkTestPlayer "p1" ⟨0, 0, 0⟩ 50, mkTestPlayer "p2" ⟨3, 0, 0⟩ 50],
    projectiles := [], powerUps := initPowerUps, gameMode := GameMode.ffa,
    teamScores := ⟨0, 0⟩, projectileIdCounter := 0 }

/-- Counterexample to C3: with two players inside the pickup radius of
the same active power-up, one tick emits TWO pickup events for that
power-up and heals BOTH players (the second-iterated player's health also
rises from 50 to 100), contradicting "exactly one pickup occurs" and
"only the first-iterated player receives the effect". -/
theorem c3_counterexample :
    (update 0 0 c3State).2.2.2 =
      [⟨"powerup_0", "p1", PowerUpType.health⟩,
       ⟨"powerup_0", "p2", PowerUpType.health⟩] ∧
    ((update 0 0 c3State).2.2.2).length = 2 ∧
    (∃ p ∈ (update 0 0 c3State).1.players, p.id = "p2" ∧ p.health = 100) := by
  refine ⟨?_, ?_, ?_⟩ <;>
    norm_num +decide [update, c3State, initPowerUps, mkTestPlayer, combatStep,
      pickupStep, collectPowerUp, collectsPowerUp, applyPowerUp, findPlayer,
      distSq, pickupRadius, List.foldl, movePlayer, clampCoord, WORLD_SIZE,
      POWERUP_RESPAWN_TIME, PLAYER_MAX_SHIELD]

/-- Characterisation of one active power-up's tick over the player scan:
every living in-radius player (in store order) collects. -/
theorem collectPowerUp_fold (now : ℚ) (pu : PowerUpState) (l : List PlayerState) :
    ∀ acc : PickupResult,
      l.foldl
        (fun acc p =>
          if collectsPowerUp pu p = true then
            ⟨{ acc.powerUp with isActive := false, respawnTime := now + POWERUP_RESPAWN_TIME },
             acc.players ++ [applyPowerUp p pu.type],
             acc.events ++ [⟨pu.id, p.id, pu.type⟩]⟩
          else ⟨acc.powerUp, acc.players ++ [p], acc.events⟩)
        acc =
      ⟨if l.any (fun p => collectsPowerUp pu p) then
          { acc.powerUp with isActive := false, respawnTime := now + POWERUP_RESPAWN_TIME }
        else acc.powerUp,
       acc.players ++ l.map (fun p =>
         if collectsPowerUp pu p = true then applyPowerUp p pu.type else p),
       acc.events ++ (l.filter (fun p => collectsPowerUp pu p)).map
         (fun p => ⟨pu.id, p.id, pu.type⟩)⟩ := by
  induction l with
  | nil => intro acc; simp
  | cons p l ih =>
      intro acc
      by_cases hc : collectsPowerUp pu p = true
      · rw [List.foldl_cons, if_pos hc, ih]
        simp [List.any_cons, hc, List.filter_cons, ite_self]
      · rw [List.foldl_cons, if_neg hc, ih]
        simp [List.any_cons, List.filter_cons, hc]

/-- C3 (amended): for an active power-up, in one tick EVERY living player
within the pickup radius receives the effect (in store order), one pickup
event is emitted per such player, and the power-up ends the tick
deactivated with `respawnTime = now + POWERUP_RESPAWN_TIME` exactly when
at least one player collected it. -/
theorem c3_all_overlapping_players_collect (now : ℚ) (ps : List PlayerState)
    (pu : PowerUpState) (hact : pu.isActive = true) :
    collectPowerUp now ps pu =
      ⟨if ps.any (fun p => collectsPowerUp pu p) then
          { pu with isActive := false, respawnTime := now + POWERUP_RESPAWN_TIME }
        else pu,
       ps.map (fun p =>
         if collectsPowerUp pu p = true then applyPowerUp p pu.type else p),
       (ps.filter (fun p => collectsPowerUp pu p)).map
         (fun p => ⟨pu.id, p.id, pu.type⟩)⟩ := by
  rw [collectPowerUp, if_neg (by simp [hact])]
  rw [collectPowerUp_fold]
  simp

/-- Two overlapping players for the C3 amended-claim witness. -/
def c3Pair : List PlayerState :=
  [mkTestPlayer "p1" ⟨0, 0, 0⟩ 50, mkTestPlayer "p2" ⟨3, 0, 0⟩ 50]

/-- The health power-up at the origin. -/
def c3Pow : PowerUpState := ⟨"powerup_0", PowerUpType.health, ⟨0, 0, 0⟩, 0, true⟩

/-- Witness for the amended C3 at a concrete overlapping pair. -/
theorem c3_all_overlapping_players_collect_witness :
    collectPowerUp 0 c3Pair c3Pow =
      ⟨if c3Pair.any (fun p => collectsPowerUp c3Pow p) then
          { c3Pow with isActive := false, respawnTime := 0 + POWERUP_RESPAWN_TIME }
        else c3Pow,
       c3Pair.map (fun p =>
         if collectsPowerUp c3Pow p = true then applyPowerUp p c3Pow.type else p),
       (c3Pair.filter (fun p => collectsPowerUp c3Pow p)).map
         (fun p => ⟨c3Pow.id, p.id, c3Pow.type⟩)⟩ :=
  c3_all_overlapping_players_collect 0 c3Pair c3Pow rfl

/-! C5: no self- or team-damage across a whole tick.  The combat loop
mutates players between projectiles, but never their ids or teams; the
`idTeamOf` trace makes the team-lookup transfer from the live store back
to the pre-tick store precise. -/

/-- The (id, team) trace of the store, invariant under the player
mutations of the tick. -/
def idTeamOf (ps : List PlayerState) : List (String × Option Team) :=
  ps.map (fun p => (p.id, p.team))

theorem map_id_of_idTeamOf {ps qs : List PlayerState}
    (h : idTeamOf ps = idTeamOf qs) :
    ps.map (fun p => p.id) = qs.map (fun p => p.id) := by
  have h2 : (idTeamOf ps).map Prod.fst = (idTeamOf qs).map Prod.fst := by rw [h]
  simpa [idTeamOf, List.map_map, Function.comp] using h2

theorem findPlayer_team_of_idTeamOf {ps qs : List PlayerState}
    (h : idTeamOf ps = idTeamOf qs) (i : String) :
    (findPlayer ps i).map (fun p => p.team) =
      (findPlayer qs i).map (fun p => p.team) := by
  induction ps generalizing qs with
  | nil =>
      cases qs with
      | nil => rfl
      | cons q qs => simp [idTeamOf] at h
  | cons p ps ih =>
      cases qs with
      | nil => simp [idTeamOf] at h
      | cons q qs =>
          simp only [idTeamOf, List.map_cons, List.cons.injEq] at h
          have hid : p.id = q.id := congrArg Prod.fst h.1
          have hteam : p.team = q.team := congrArg Prod.snd h.1
          by_cases hpi : p.id = i
          · have hqi : q.id = i := by rw [← hid]; exact hpi
            simp [findPlayer, hpi, hqi, hteam]
          · have hqi : ¬ q.id = i := by rw [← hid]; exact hpi
            simp only [findPlayer, if_neg hpi, if_neg hqi]
            exact ih h.2

theorem idTeamOf_updateById {ps : List PlayerState} {hp p' : PlayerState}
    (hnd : List.Nodup (ps.map fun p => p.id)) (hmem : hp ∈ ps)
    (hid : p'.id = hp.id) (ht : p'.team = hp.team) :
    idTeamOf (updateById ps hp.id p') = idTeamOf ps := by
  unfold idTeamOf updateById
  rw [List.map_map]
  apply List.map_congr_left
  intro q hq
  by_cases hqi : q.id = hp.id
  · have hqhp : q = hp := eq_of_mem_nodup_id hnd hq hmem hqi
    simp [Function.comp, hqi, hid, ht, hqhp]
  · simp [Function.comp, hqi]

theorem idTeamOf_resolveProjectile {mode : GameMode} {now dt : ℚ}
    {ps : List PlayerState} {sc : TeamScores} {proj : ProjectileState}
    (hnd : List.Nodup (ps.map fun p => p.id)) :
    idTeamOf (resolveProjectile mode now dt ps sc proj).players = idTeamOf ps := by
  rcases hsel : selectHit mode ps proj.ownerId proj.position proj.velocity dt
    with _ | ⟨d, hp⟩
  · rw [(resolveProjectile_no_hit hsel).1]
  · obtain ⟨hmem, _, _⟩ := selectHit_spec hsel
    by_cases hl : hp.health - (absorbShield hp.shield proj.damage).2 ≤ 0
    · rcases hatt : findPlayer (updateById ps hp.id (lethalVictim hp proj.damage))
          proj.ownerId with _ | a
      · rw [resolveProjectile_hit_lethal_no_attacker hsel hl hatt]
        exact idTeamOf_updateById hnd hmem rfl rfl
      · rw [resolveProjectile_hit_lethal_attacker hsel hl hatt]
        have hids : (updateById ps hp.id (lethalVictim hp proj.damage)).map
            (fun p => p.id) = ps.map (fun p => p.id) :=
          map_id_updateById (show (lethalVictim hp proj.damage).id = hp.id from rfl)
        have hnd1 : List.Nodup ((updateById ps hp.id
            (lethalVictim hp proj.damage)).map fun p => p.id) := by
          rw [hids]; exact hnd
        have hmem1 : a ∈ updateById ps hp.id (lethalVictim hp proj.damage) :=
          findPlayer_mem hatt
        have h1 : idTeamOf (updateById (updateById ps hp.id
              (lethalVictim hp proj.damage)) a.id (bumpAttacker a)) =
            idTeamOf (updateById ps hp.id (lethalVictim hp proj.damage)) :=
          idTeamOf_updateById hnd1 hmem1 rfl rfl
        rw [h1]
        exact idTeamOf_updateById hnd hmem rfl rfl
    · rw [resolveProjectile_hit_nonlethal hsel hl]
      exact idTeamOf_updateById hnd hmem rfl rfl

theorem idTeamOf_movePlayers (dt : ℚ) (ps : List PlayerState) :
    idTeamOf (ps.map (movePlayer dt)) = idTeamOf ps := by
  unfold idTeamOf
  rw [List.map_map]
  apply List.map_congr_left
  intro q _
  simp only [Function.comp, movePlayer]
  split_ifs <;> rfl

/-- Every hit of the combat fold comes from the resolution of one projectile
against an intermediate store with the same (id, team) trace. -/
theorem combat_fold_hits {mode : GameMode} {now dt : ℚ}
    (l : List ProjectileState) :
    ∀ acc : CombatAcc, List.Nodup (acc.players.map fun p => p.id) →
      idTeamOf ((l.foldl (combatStep mode now dt) acc).players) =
        idTeamOf acc.players ∧
      ∀ h ∈ (l.foldl (combatStep mode now dt) acc).hits,
        h ∈ acc.hits ∨
          ∃ (ps2 : List PlayerState) (sc2 : TeamScores) (proj : ProjectileState),
            idTeamOf ps2 = idTeamOf acc.players ∧
            List.Nodup (ps2.map fun p => p.id) ∧
            h ∈ (resolveProjectile mode now dt ps2 sc2 proj).hits := by
  induction l with
  | nil => exact fun acc _ => ⟨rfl, fun h hh => Or.inl hh⟩
  | cons proj l ih =>
      intro acc hnd
      simp only [List.foldl_cons]
      have hpl : (combatStep mode now dt acc proj).players =
          (resolveProjectile mode now dt acc.players acc.scores proj).players := rfl
      have hteam : idTeamOf (combatStep mode now dt acc proj).players =
          idTeamOf acc.players := by
        rw [hpl]; exact idTeamOf_resolveProjectile hnd
      have hnd' : List.Nodup ((combatStep mode now dt acc proj).players.map
          fun p => p.id) := by
        rw [map_id_of_idTeamOf hteam]; exact hnd
      obtain ⟨ihA, ihB⟩ := ih (combatStep mode now dt acc proj) hnd'
      refine ⟨ihA.trans hteam, ?_⟩
      intro h hh
      rcases ihB h hh with hin | ⟨ps2, sc2, pr, he, hnd2, hmem⟩
      · have hhits : (combatStep mode now dt acc proj).hits =
            acc.hits ++ (resolveProjectile mode now dt acc.players acc.scores
              proj).hits := rfl
        rw [hhits] at hin
        rcases List.mem_append.mp hin with h1 | h2
        · exact Or.inl h1
        · exact Or.inr ⟨acc.players, acc.scores, proj, rfl, hnd, h2⟩
      · exact Or.inr ⟨ps2, sc2, pr, he.trans hteam, hnd2, hmem⟩

/-- C5: during one tick no hit event targets the owner of the projectile, and
in team mode no hit event's target shares the owner's team. -/
theorem c5_no_self_or_team_damage (st : GameState) (now dt : ℚ)
    (hnd : List.Nodup (st.players.map fun p => p.id)) :
    (∀ h ∈ (update now dt st).2.1, h.targetId ≠ h.attackerId) ∧
    (st.gameMode = GameMode.team →
      ∀ h ∈ (update now dt st).2.1, ∀ o tp,
        findPlayer st.players h.attackerId = some o →
        findPlayer st.players h.targetId = some tp →
        o.team ≠ tp.team) := by
  have hupd : (update now dt st).2.1 =
      (st.projectiles.foldl (combatStep st.gameMode now dt)
        ⟨st.players.map (movePlayer dt), st.teamScores, [], [], [], []⟩).hits := rfl
  have h0team : idTeamOf (st.players.map (movePlayer dt)) = idTeamOf st.players :=
    idTeamOf_movePlayers dt st.players
  have h0nd : List.Nodup ((st.players.map (movePlayer dt)).map fun p => p.id) := by
    rw [map_id_of_idTeamOf h0team]; exact hnd
  obtain ⟨_, hfold⟩ := combat_fold_hits st.projectiles
    ⟨st.players.map (movePlayer dt), st.teamScores, [], [], [], []⟩ h0nd
  have hsrc : ∀ h ∈ (update now dt st).2.1,
      ∃ (ps2 : List PlayerState) (sc2 : TeamScores) (proj : ProjectileState),
        idTeamOf ps2 = idTeamOf st.players ∧
        List.Nodup (ps2.map fun p => p.id) ∧
        h ∈ (resolveProjectile st.gameMode now dt ps2 sc2 proj).hits := by
    intro h hh
    rw [hupd] at hh
    rcases hfold h hh with hin | ⟨ps2, sc2, pr, he, hnd2, hmem⟩
    · simp at hin
    · exact ⟨ps2, sc2, pr, he.trans h0team, hnd2, hmem⟩
  constructor
  · intro h hh
    obtain ⟨ps2, sc2, proj, _, _, hmem⟩ := hsrc h hh
    obtain ⟨d, hp, hsel, hhe⟩ := resolveProjectile_hits_shape hmem
    obtain ⟨_, hcand, _⟩ := selectHit_spec hsel
    obtain ⟨_, hneq, _⟩ := hitCandidate_eligible hcand
    rw [hhe]
    exact hneq
  · intro hm h hh o tp ho htp
    obtain ⟨ps2, sc2, proj, he, hnd2, hmem⟩ := hsrc h hh
    obtain ⟨d, hp, hsel, hhe⟩ := resolveProjectile_hits_shape hmem
    obtain ⟨hpmem, hcand, _⟩ := selectHit_spec hsel
    obtain ⟨_, _, hteamf⟩ := hitCandidate_eligible hcand
    have hstf : sameTeamAsOwner ps2 proj.ownerId hp = false := hteamf hm
    have hatk : h.attackerId = proj.ownerId := by rw [hhe]
    have htid : h.targetId = hp.id := by rw [hhe]
    rw [hatk] at ho
    rw [htid] at htp
    -- transfer the owner lookup into the intermediate store
    have htr := findPlayer_team_of_idTeamOf he proj.ownerId
    rw [ho] at htr
    rcases hfo2 : findPlayer ps2 proj.ownerId with _ | o2
    · rw [hfo2] at htr; cases htr
    · rw [hfo2] at htr
      have ho2team : o2.team = o.team := by
        simpa using htr
      have hne2 : o2.team ≠ hp.team := by
        intro heq
        have : sameTeamAsOwner ps2 proj.ownerId hp = true := by
          simp [sameTeamAsOwner, hfo2, heq]
        rw [this] at hstf
        cases hstf
      -- transfer the target lookup
      have htr2 := findPlayer_team_of_idTeamOf he hp.id
      rw [htp, findPlayer_of_mem_nodup hnd2 hpmem] at htr2
      have htpteam : hp.team = tp.team := by simpa using htr2
      rw [← ho2team, ← htpteam]
      exact hne2

/-- Team-mode state for the C5 witness: red A and blue B with one
projectile of A in flight. -/
def c5State : GameState :=
  { players := [{ mkTestPlayer "A" ⟨0, 0, 0⟩ 100 with team := some Team.red },
                { mkTestPlayer "B" ⟨0, 0, 50⟩ 100 with team := some Team.blue }],
    projectiles := [⟨"proj_0", "A", ProjectileType.laser, ⟨0, 0, 0⟩, ⟨0, 0, 200⟩, 15, 0⟩],
    powerUps := [], gameMode := GameMode.team,
    teamScores := ⟨0, 0⟩, projectileIdCounter := 1 }

/-- Witness for C5 on a concrete team-mode tick. -/
theorem c5_no_self_or_team_damage_witness :
    (∀ h ∈ (update 0 (3 / 10) c5State).2.1, h.targetId ≠ h.attackerId) ∧
    (c5State.gameMode = GameMode.team →
      ∀ h ∈ (update 0 (3 / 10) c5State).2.1, ∀ o tp,
        findPlayer c5State.players h.attackerId = some o →
        findPlayer c5State.players h.targetId = some tp →
        o.team ≠ tp.team) :=
  c5_no_self_or_team_damage c5State 0 (3 / 10) (by decide)

/-! C4: state invariants across all public operations.  The inductive
invariant tracked through the operations is `PlayerOk` (health bounds,
dead-implies-zero, and the constant max health) together with
nonnegative projectile damage; the team clause is tracked separately
because `setGameMode` breaks it. -/

/-- The health clauses of the claimed invariant for one player. -/
def healthInvP (p : PlayerState) : Prop :=
  0 ≤ p.health ∧ p.health ≤ p.maxHealth ∧ (p.isAlive = false → p.health = 0)

/-- Strengthened per-player inductive invariant. -/
def PlayerOk (p : PlayerState) : Prop :=
  healthInvP p ∧ p.maxHealth = PLAYER_MAX_HEALTH

/-- The health part of the claimed state invariant. -/
def healthInv (s : GameState) : Prop := ∀ p ∈ s.players, healthInvP p

/-- The team part of the claimed state invariant. -/
def teamInv (s : GameState) : Prop :=
  ∀ p ∈ s.players, p.team ≠ none → s.gameMode = GameMode.team

/-- The full invariant exactly as the claim states it. -/
def claimInvC4 (s : GameState) : Prop :=
  ∀ p ∈ s.players, (0 ≤ p.health ∧ p.health ≤ p.maxHealth) ∧
    (p.isAlive = false → p.health = 0) ∧
    (p.team ≠ none → s.gameMode = GameMode.team)

theorem movePlayer_ok {dt : ℚ} {p : PlayerState} (h : PlayerOk p) :
    PlayerOk (movePlayer dt p) := by
  unfold movePlayer
  split_ifs <;> exact h

theorem lethalVictim_ok {hp : PlayerState} {dmg : ℚ} (h : PlayerOk hp) :
    PlayerOk (lethalVictim hp dmg) := by
  obtain ⟨⟨h0, h1, _⟩, hm⟩ := h
  exact ⟨⟨le_refl 0, by show (0 : ℚ) ≤ hp.maxHealth; linarith, fun _ => rfl⟩, hm⟩

theorem nonlethalVictim_ok {hp : PlayerState} {dmg : ℚ} (hd : 0 ≤ dmg)
    (halive : hp.isAlive = true)
    (hnl : ¬ hp.health - (absorbShield hp.shield dmg).2 ≤ 0)
    (h : PlayerOk hp) : PlayerOk (nonlethalVictim hp dmg) := by
  obtain ⟨⟨h0, h1, _⟩, hm⟩ := h
  have hA := @absorbShield_snd_nonneg hp.shield dmg hd
  refine ⟨⟨?_, ?_, ?_⟩, hm⟩
  · show (0 : ℚ) ≤ hp.health - (absorbShield hp.shield dmg).2
    linarith
  · show hp.health - (absorbShield hp.shield dmg).2 ≤ hp.maxHealth
    linarith
  · intro hdead
    exact absurd (halive ▸ hdead) (by simp)

theorem bumpAttacker_ok {a : PlayerState} (h : PlayerOk a) :
    PlayerOk (bumpAttacker a) := h

theorem applyPowerUp_ok {p : PlayerState} {t : PowerUpType} (h : PlayerOk p)
    (halive : p.isAlive = true) : PlayerOk (applyPowerUp p t) := by
  obtain ⟨⟨h0, h1, h2⟩, hm⟩ := h
  cases t with
  | health =>
      refine ⟨⟨?_, ?_, ?_⟩, hm⟩
      · show (0 : ℚ) ≤ min p.maxHealth (p.health + 50)
        exact le_min (by linarith) (by linarith)
      · show min p.maxHealth (p.health + 50) ≤ p.maxHealth
        exact min_le_left _ _
      · intro hdead
        exact absurd (halive ▸ hdead) (by simp)
  | shield =>
      exact ⟨⟨h0, h1, fun hdead => absurd (halive ▸ hdead) (by simp)⟩, hm⟩
  | speed => exact ⟨⟨h0, h1, h2⟩, hm⟩
  | rapidfire => exact ⟨⟨h0, h1, h2⟩, hm⟩
  | damage => exact ⟨⟨h0, h1, h2⟩, hm⟩

theorem resolveProjectile_players_ok {mode : GameMode} {now dt : ℚ}
    {ps : List PlayerState} {sc : TeamScores} {proj : ProjectileState}
    (hd : 0 ≤ proj.damage) (hok : ∀ p ∈ ps, PlayerOk p) :
    ∀ q' ∈ (resolveProjectile mode now dt ps sc proj).players, PlayerOk q' := by
  rcases hsel : selectHit mode ps proj.ownerId proj.position proj.velocity dt
    with _ | ⟨d, hp⟩
  · rw [(resolveProjectile_no_hit hsel).1]; exact hok
  · obtain ⟨hmem, hcand, _⟩ := selectHit_spec hsel
    obtain ⟨halive, _, _⟩ := hitCandidate_eligible hcand
    have hhp := hok hp hmem
    have hps1 : ∀ q' ∈ updateById ps hp.id (lethalVictim hp proj.damage),
        PlayerOk q' := by
      intro q' hq'
      rcases mem_updateById hq' with ⟨heq, _⟩ | hq
      · rw [heq]; exact lethalVictim_ok hhp
      · exact hok q' hq
    by_cases hl : hp.health - (absorbShield hp.shield proj.damage).2 ≤ 0
    · rcases hatt : findPlayer (updateById ps hp.id (lethalVictim hp proj.damage))
          proj.ownerId with _ | a
      · rw [resolveProjectile_hit_lethal_no_attacker hsel hl hatt]
        exact hps1
      · rw [resolveProjectile_hit_lethal_attacker hsel hl hatt]
        intro q' hq'
        rcases mem_updateById hq' with ⟨heq, _⟩ | hq
        · rw [heq]
          exact bumpAttacker_ok (hps1 a (findPlayer_mem hatt))
        · exact hps1 q' hq
    · rw [resolveProjectile_hit_nonlethal hsel hl]
      intro q' hq'
      rcases mem_updateById hq' with ⟨heq, _⟩ | hq
      · rw [heq]; exact nonlethalVictim_ok hd halive hl hhp
      · exact hok q' hq

theorem combat_fold_players_ok (mode : GameMode) (now dt : ℚ)
    (l : List ProjectileState) :
    ∀ acc : CombatAcc, (∀ pr ∈ l, 0 ≤ pr.damage) →
      (∀ p ∈ acc.players, PlayerOk p) →
      ∀ q' ∈ (l.foldl (combatStep mode now dt) acc).players, PlayerOk q' := by
  induction l with
  | nil => exact fun acc _ hok => hok
  | cons proj l ih =>
      intro acc hdl hok
      simp only [List.foldl_cons]
      refine ih (combatStep mode now dt acc proj)
        (fun pr hpr => hdl pr (List.mem_cons_of_mem _ hpr)) ?_
      have hd := hdl proj (List.mem_cons_self _ _)
      exact resolveProjectile_players_ok hd hok

theorem collectPowerUp_players_ok {now : ℚ} {ps : List PlayerState}
    {pu : PowerUpState} (hok : ∀ p ∈ ps, PlayerOk p) :
    ∀ q' ∈ (collectPowerUp now ps pu).players, PlayerOk q' := by
  by_cases hact : pu.isActive = false
  · rw [collectPowerUp, if_pos hact]
    split_ifs <;> exact hok
  · rw [collectPowerUp, if_neg hact, collectPowerUp_fold]
    intro q' hq'
    simp only [List.nil_append] at hq'
    rcases List.mem_map.mp hq' with ⟨q, hq, heq⟩
    by_cases hc : collectsPowerUp pu q = true
    · rw [if_pos hc] at heq
      have halive : q.isAlive = true := by
        have := hc
        unfold collectsPowerUp at this
        exact (Bool.and_eq_true _ _ ▸ this).1
      rw [← heq]
      exact applyPowerUp_ok (hok q hq) halive
    · rw [if_neg hc] at heq
      rw [← heq]
      exact hok q hq

theorem pickup_fold_players_ok {now : ℚ} (pus : List PowerUpState) :
    ∀ acc : PickupAcc, (∀ p ∈ acc.players, PlayerOk p) →
      ∀ q' ∈ (pus.foldl (pickupStep now) acc).players, PlayerOk q' := by
  induction pus with
  | nil => exact fun acc hok => hok
  | cons pu pus ih =>
      intro acc hok
      simp only [List.foldl_cons]
      exact ih (pickupStep now acc pu) (collectPowerUp_players_ok hok)

theorem update_players_ok {st : GameState} {now dt : ℚ}
    (hdam : ∀ pr ∈ st.projectiles, 0 ≤ pr.damage)
    (hok : ∀ p ∈ st.players, PlayerOk p) :
    ∀ q' ∈ (update now dt st).1.players, PlayerOk q' := by
  have h0 : ∀ p ∈ st.players.map (movePlayer dt), PlayerOk p := by
    intro q' hq'
    rcases List.mem_map.mp hq' with ⟨q, hq, heq⟩
    rw [← heq]
    exact movePlayer_ok (hok q hq)
  have h1 := combat_fold_players_ok st.gameMode now dt st.projectiles
    ⟨st.players.map (movePlayer dt), st.teamScores, [], [], [], []⟩ hdam h0
  exact pickup_fold_players_ok st.powerUps
    ⟨[], (st.projectiles.foldl (combatStep st.gameMode now dt)
      ⟨st.players.map (movePlayer dt), st.teamScores, [], [], [], []⟩).players, []⟩ h1

theorem resolveProjectile_proj_damage {mode : GameMode} {now dt : ℚ}
    {ps : List PlayerState} {sc : TeamScores} {proj : ProjectileState} :
    (resolveProjectile mode now dt ps sc proj).proj.damage = proj.damage := by
  rcases hsel : selectHit mode ps proj.ownerId proj.position proj.velocity dt
    with _ | ⟨d, hp⟩
  · exact (resolveProjectile_no_hit hsel).2.2.2.2
  · by_cases hl : hp.health - (absorbShield hp.shield proj.damage).2 ≤ 0
    · rcases hatt : findPlayer (updateById ps hp.id (lethalVictim hp proj.damage))
          proj.ownerId with _ | a
      · rw [resolveProjectile_hit_lethal_no_attacker hsel hl hatt]
      · rw [resolveProjectile_hit_lethal_attacker hsel hl hatt]
    · rw [resolveProjectile_hit_nonlethal hsel hl]

theorem combat_fold_projs {mode : GameMode} {now dt : ℚ}
    (l : List ProjectileState) :
    ∀ acc : CombatAcc, ∀ pr' ∈ (l.foldl (combatStep mode now dt) acc).projs,
      pr' ∈ acc.projs ∨ ∃ pr ∈ l, pr'.damage = pr.damage := by
  induction l with
  | nil => exact fun acc pr' h => Or.inl h
  | cons proj l ih =>
      intro acc pr' h
      simp only [List.foldl_cons] at h
      rcases ih (combatStep mode now dt acc proj) pr' h with hin | ⟨pr, hpr, heq⟩
      · have hstep : (combatStep mode now dt acc proj).projs =
            acc.projs ++ [(resolveProjectile mode now dt acc.players acc.scores
              proj).proj] := rfl
        rw [hstep] at hin
        rcases List.mem_append.mp hin with h1 | h2
        · exact Or.inl h1
        · have : pr' = (resolveProjectile mode now dt acc.players acc.scores
              proj).proj := by simpa using h2
          refine Or.inr ⟨proj, List.mem_cons_self _ _, ?_⟩
          rw [this]
          exact resolveProjectile_proj_damage
      · exact Or.inr ⟨pr, List.mem_cons_of_mem _ hpr, heq⟩

theorem update_projs_damage {st : GameState} {now dt : ℚ}
    (hdam : ∀ pr ∈ st.projectiles, 0 ≤ pr.damage) :
    ∀ pr' ∈ (update now dt st).1.projectiles, 0 ≤ pr'.damage := by
  intro pr' h
  have h2 : pr' ∈ (st.projectiles.foldl (combatStep st.gameMode now dt)
      ⟨st.players.map (movePlayer dt), st.teamScores, [], [], [], []⟩).projs :=
    (List.mem_filter.mp h).1
  rcases combat_fold_projs st.projectiles _ pr' h2 with hin | ⟨pr, hpr, heq⟩
  · simp at hin
  · rw [heq]
    exact hdam pr hpr

/-! Team-field origin lemmas: every player after any phase of the tick
has the team of some pre-phase player. -/

theorem resolveProjectile_team_mem {mode : GameMode} {now dt : ℚ}
    {ps : List PlayerState} {sc : TeamScores} {proj : ProjectileState} :
    ∀ q' ∈ (resolveProjectile mode now dt ps sc proj).players,
      ∃ q ∈ ps, q'.team = q.team := by
  rcases hsel : selectHit mode ps proj.ownerId proj.position proj.velocity dt
    with _ | ⟨d, hp⟩
  · rw [(resolveProjectile_no_hit hsel).1]
    exact fun q' hq' => ⟨q', hq', rfl⟩
  · obtain ⟨hmem, _, _⟩ := selectHit_spec hsel
    have hps1 : ∀ q' ∈ updateById ps hp.id (lethalVictim hp proj.damage),
        ∃ q ∈ ps, q'.team = q.team := by
      intro q' hq'
      rcases mem_updateById hq' with ⟨heq, _⟩ | hq
      · exact ⟨hp, hmem, by rw [heq]; rfl⟩
      · exact ⟨q', hq, rfl⟩
    by_cases hl : hp.health - (absorbShield hp.shield proj.damage).2 ≤ 0
    · rcases hatt : findPlayer (updateById ps hp.id (lethalVictim hp proj.damage))
          proj.ownerId with _ | a
      · rw [resolveProjectile_hit_lethal_no_attacker hsel hl hatt]
        exact hps1
      · rw [resolveProjectile_hit_lethal_attacker hsel hl hatt]
        intro q' hq'
        rcases mem_updateById hq' with ⟨heq, _⟩ | hq
        · obtain ⟨q, hq2, ht⟩ := hps1 a (findPlayer_mem hatt)
          exact ⟨q, hq2, by rw [heq]; exact ht⟩
        · exact hps1 q' hq
    · rw [resolveProjectile_hit_nonlethal hsel hl]
      intro q' hq'
      rcases mem_updateById hq' with ⟨heq, _⟩ | hq
      · exact ⟨hp, hmem, by rw [heq]; rfl⟩
      · exact ⟨q', hq, rfl⟩

theorem combat_fold_team_mem {mode : GameMode} {now dt : ℚ}
    (l : List ProjectileState) :
    ∀ acc : CombatAcc, ∀ q' ∈ (l.foldl (combatStep mode now dt) acc).players,
      ∃ q ∈ acc.players, q'.team = q.team := by
  induction l with
  | nil => exact fun acc q' hq' => ⟨q', hq', rfl⟩
  | cons proj l ih =>
      intro acc q' hq'
      simp only [List.foldl_cons] at hq'
      obtain ⟨q1, hq1, ht1⟩ := ih (combatStep mode now dt acc proj) q' hq'
      obtain ⟨q2, hq2, ht2⟩ := resolveProjectile_team_mem q1 hq1
      exact ⟨q2, hq2, ht1.trans ht2⟩

theorem applyPowerUp_team {p : PlayerState} {t : PowerUpType} :
    (applyPowerUp p t).team = p.team := by
  cases t <;> rfl

theorem collectPowerUp_team_mem {now : ℚ} {ps : List PlayerState}
    {pu : PowerUpState} :
    ∀ q' ∈ (collectPowerUp now ps pu).players, ∃ q ∈ ps, q'.team = q.team := by
  by_cases hact : pu.isActive = false
  · rw [collectPowerUp, if_pos hact]
    split_ifs <;> exact fun q' hq' => ⟨q', hq', rfl⟩
  · rw [collectPowerUp, if_neg hact, collectPowerUp_fold]
    intro q' hq'
    simp only [List.nil_append] at hq'
    rcases List.mem_map.mp hq' with ⟨q, hq, heq⟩
    refine ⟨q, hq, ?_⟩
    rw [← heq]
    by_cases hc : collectsPowerUp pu q = true
    · rw [if_pos hc]; exact applyPowerUp_team
    · rw [if_neg hc]

theorem pickup_fold_team_mem {now : ℚ} (pus : List PowerUpState) :
    ∀ acc : PickupAcc, ∀ q' ∈ (pus.foldl (pickupStep now) acc).players,
      ∃ q ∈ acc.players, q'.team = q.team := by
  induction pus with
  | nil => exact fun acc q' hq' => ⟨q', hq', rfl⟩
  | cons pu pus ih =>
      intro acc q' hq'
      simp only [List.foldl_cons] at hq'
      obtain ⟨q1, hq1, ht1⟩ := ih (pickupStep now acc pu) q' hq'
      obtain ⟨q2, hq2, ht2⟩ := collectPowerUp_team_mem q1 hq1
      exact ⟨q2, hq2, ht1.trans ht2⟩

theorem update_team_mem {st : GameState} {now dt : ℚ} :
    ∀ q' ∈ (update now dt st).1.players, ∃ q ∈ st.players, q'.team = q.team := by
  intro q' hq'
  obtain ⟨q1, hq1, ht1⟩ := pickup_fold_team_mem st.powerUps
    ⟨[], (st.projectiles.foldl (combatStep st.gameMode now dt)
      ⟨st.players.map (movePlayer dt), st.teamScores, [], [], [], []⟩).players, []⟩
    q' hq'
  obtain ⟨q2, hq2, ht2⟩ := combat_fold_team_mem st.projectiles
    ⟨st.players.map (movePlayer dt), st.teamScores, [], [], [], []⟩ q1 hq1
  rcases List.mem_map.mp hq2 with ⟨q3, hq3, heq⟩
  refine ⟨q3, hq3, (ht1.trans ht2).trans ?_⟩
  rw [← heq]
  unfold movePlayer
  split_ifs <;> rfl

/-- Strengthened inductive state invariant. -/
def StrongInv (s : GameState) : Prop :=
  (∀ p ∈ s.players, PlayerOk p) ∧ (∀ pr ∈ s.projectiles, 0 ≤ pr.damage)

theorem strong_init (mode : GameMode) : StrongInv (GameState.init mode) :=
  ⟨fun p hp => absurd hp (by simp [GameState.init]),
   fun pr hpr => absurd hpr (by simp [GameState.init])⟩

theorem strong_add {s : GameState} (h : StrongInv s) (id name : String)
    (tm : Option Team) (now : ℚ) (r : Nat) :
    StrongInv (addPlayer s id name tm now r).1 := by
  refine ⟨?_, h.2⟩
  intro q hq
  rcases mem_setPlayer hq with heq | hmem
  · subst heq
    refine ⟨⟨?_, ?_, ?_⟩, rfl⟩
    · show (0 : ℚ) ≤ PLAYER_MAX_HEALTH
      norm_num [PLAYER_MAX_HEALTH]
    · show PLAYER_MAX_HEALTH ≤ PLAYER_MAX_HEALTH
      exact le_refl _
    · intro hdead
      simp at hdead
  · exact h.1 q hmem

theorem strong_remove {s : GameState} (h : StrongInv s) (id : String) :
    StrongInv (removePlayer s id) :=
  ⟨fun q hq => h.1 q (List.mem_filter.mp hq).1,
   fun pr hpr => h.2 pr (List.mem_filter.mp hpr).1⟩

theorem strong_input {s : GameState} (h : StrongInv s) (id : String)
    (inp : PlayerInput) (now : ℚ) :
    StrongInv (updatePlayerInput s id inp now) := by
  rcases hf : findPlayer s.players id with _ | p
  · simp only [updatePlayerInput, hf]; exact h
  · simp only [updatePlayerInput, hf]
    by_cases ha : p.isAlive = false
    · rw [if_pos ha]; exact h
    · rw [if_neg ha]
      refine ⟨?_, h.2⟩
      intro q hq
      rcases mem_updateById hq with ⟨heq, _⟩ | hmem
      · subst heq
        exact h.1 p (findPlayer_mem hf)
      · exact h.1 q hmem

theorem strong_shoot {s : GameState} (h : StrongInv s) (id : String)
    (si : ShootInput) (now : ℚ) : StrongInv (playerShoot s id si now).1 := by
  rcases hf : findPlayer s.players id with _ | p
  · simp only [playerShoot, hf]; exact h
  · simp only [playerShoot, hf]
    by_cases ha : p.isAlive = false
    · rw [if_pos ha]; exact h
    · rw [if_neg ha]
      refine ⟨h.1, ?_⟩
      intro pr hpr
      rcases List.mem_append.mp hpr with h1 | h2
      · exact h.2 pr h1
      · rw [List.mem_singleton.mp h2]
        rcases si with ⟨ty, dir⟩
        cases ty <;>
          norm_num [MISSILE_DAMAGE, PLASMA_DAMAGE, LASER_DAMAGE]

theorem strong_respawn {s : GameState} (h : StrongInv s) (id : String)
    (now : ℚ) (r : Nat) : StrongInv (respawnPlayer s id now r).1 := by
  rcases hf : findPlayer s.players id with _ | p
  · simp only [respawnPlayer, hf]; exact h
  · simp only [respawnPlayer, hf]
    refine ⟨?_, h.2⟩
    intro q hq
    rcases mem_updateById hq with ⟨heq, _⟩ | hmem
    · subst heq
      have hp := h.1 p (findPlayer_mem hf)
      refine ⟨⟨?_, ?_, ?_⟩, hp.2⟩
      · show (0 : ℚ) ≤ PLAYER_MAX_HEALTH
        norm_num [PLAYER_MAX_HEALTH]
      · show PLAYER_MAX_HEALTH ≤ p.maxHealth
        rw [hp.2]
      · intro hdead
        simp at hdead
    · exact h.1 q hmem

theorem strong_mode {s : GameState} (h : StrongInv s) (m : GameMode) :
    StrongInv (setGameMode s m) := h

theorem strong_tick {s : GameState} (h : StrongInv s) (now dt : ℚ) :
    StrongInv (update now dt s).1 :=
  ⟨update_players_ok h.2 h.1, update_projs_damage h.2⟩

theorem teamInv_init (mode : GameMode) : teamInv (GameState.init mode) :=
  fun p hp => absurd hp (by simp [GameState.init])

theorem teamInv_add {s : GameState} (h : teamInv s) (id name : String)
    (tm : Option Team) (now : ℚ) (r : Nat) :
    teamInv (addPlayer s id name tm now r).1 := by
  intro q hq hteam
  show s.gameMode = GameMode.team
  rcases mem_setPlayer hq with heq | hmem
  · subst heq
    by_cases hm : s.gameMode = GameMode.team
    · exact hm
    · exfalso
      apply hteam
      show (if s.gameMode = GameMode.team then some (tm.getD Team.red) else none) = none
      rw [if_neg hm]
  · exact h q hmem hteam

theorem teamInv_remove {s : GameState} (h : teamInv s) (id : String) :
    teamInv (removePlayer s id) :=
  fun q hq hteam => h q (List.mem_filter.mp hq).1 hteam

theorem teamInv_input {s : GameState} (h : teamInv s) (id : String)
    (inp : PlayerInput) (now : ℚ) :
    teamInv (updatePlayerInput s id inp now) := by
  rcases hf : findPlayer s.players id with _ | p
  · simp only [updatePlayerInput, hf]; exact h
  · simp only [updatePlayerInput, hf]
    by_cases ha : p.isAlive = false
    · rw [if_pos ha]; exact h
    · rw [if_neg ha]
      intro q hq hteam
      show s.gameMode = GameMode.team
      rcases mem_updateById hq with ⟨heq, _⟩ | hmem
      · subst heq
        exact h p (findPlayer_mem hf) hteam
      · exact h q hmem hteam

theorem teamInv_shoot {s : GameState} (h : teamInv s) (id : String)
    (si : ShootInput) (now : ℚ) : teamInv (playerShoot s id si now).1 := by
  rcases hf : findPlayer s.players id with _ | p
  · simp only [playerShoot, hf]; exact h
  · simp only [playerShoot, hf]
    by_cases ha : p.isAlive = false
    · rw [if_pos ha]; exact h
    · rw [if_neg ha]
      intro q hq hteam
      exact h q hq hteam

theorem teamInv_respawn {s : GameState} (h : teamInv s) (id : String)
    (now : ℚ) (r : Nat) : teamInv (respawnPlayer s id now r).1 := by
  rcases hf : findPlayer s.players id with _ | p
  · simp only [respawnPlayer, hf]; exact h
  · simp only [respawnPlayer, hf]
    intro q hq hteam
    show s.gameMode = GameMode.team
    rcases mem_updateById hq with ⟨heq, _⟩ | hmem
    · subst heq
      exact h p (findPlayer_mem hf) hteam
    · exact h q hmem hteam

theorem teamInv_tick {s : GameState} (h : teamInv s) (now dt : ℚ) :
    teamInv (update now dt s).1 := by
  intro q hq hteam
  obtain ⟨q0, hq0, ht⟩ := update_team_mem q hq
  show s.gameMode = GameMode.team
  apply h q0 hq0
  rw [← ht]
  exact hteam

/-- Reachability via the public operations (constructor arguments model
`Date.now()` and the random spawn index). -/
inductive Reachable : GameState → Prop where
  | init (mode : GameMode) : Reachable (GameState.init mode)
  | add (s : GameState) (id name : String) (tm : Option Team) (now : ℚ)
      (r : Nat) : Reachable s → Reachable (addPlayer s id name tm now r).1
  | remove (s : GameState) (id : String) : Reachable s →
      Reachable (removePlayer s id)
  | input (s : GameState) (id : String) (inp : PlayerInput) (now : ℚ) :
      Reachable s → Reachable (updatePlayerInput s id inp now)
  | shoot (s : GameState) (id : String) (si : ShootInput) (now : ℚ) :
      Reachable s → Reachable (playerShoot s id si now).1
  | respawn (s : GameState) (id : String) (now : ℚ) (r : Nat) :
      Reachable s → Reachable (respawnPlayer s id now r).1
  | setMode (s : GameState) (m : GameMode) : Reachable s →
      Reachable (setGameMode s m)
  | tick (s : GameState) (now dt : ℚ) : Reachable s →
      Reachable (update now dt s).1

/-- Reachability without any `setGameMode` call. -/
inductive ReachableNM : GameState → Prop where
  | init (mode : GameMode) : ReachableNM (GameState.init mode)
  | add (s : GameState) (id name : String) (tm : Option Team) (now : ℚ)
      (r : Nat) : ReachableNM s → ReachableNM (addPlayer s id name tm now r).1
  | remove (s : GameState) (id : String) : ReachableNM s →
      ReachableNM (removePlayer s id)
  | input (s : GameState) (id : String) (inp : PlayerInput) (now : ℚ) :
      ReachableNM s → ReachableNM (updatePlayerInput s id inp now)
  | shoot (s : GameState) (id : String) (si : ShootInput) (now : ℚ) :
      ReachableNM s → ReachableNM (playerShoot s id si now).1
  | respawn (s : GameState) (id : String) (now : ℚ) (r : Nat) :
      ReachableNM s → ReachableNM (respawnPlayer s id now r).1
  | tick (s : GameState) (now dt : ℚ) : ReachableNM s →
      ReachableNM (update now dt s).1

theorem reachable_strongInv {s : GameState} (h : Reachable s) : StrongInv s := by
  induction h with
  | init mode => exact strong_init mode
  | add s id name tm now r _ ih => exact strong_add ih id name tm now r
  | remove s id _ ih => exact strong_remove ih id
  | input s id inp now _ ih => exact strong_input ih id inp now
  | shoot s id si now _ ih => exact strong_shoot ih id si now
  | respawn s id now r _ ih => exact strong_respawn ih id now r
  | setMode s m _ ih => exact strong_mode ih m
  | tick s now dt _ ih => exact strong_tick ih now dt

theorem reachableNM_inv {s : GameState} (h : ReachableNM s) :
    StrongInv s ∧ teamInv s := by
  induction h with
  | init mode => exact ⟨strong_init mode, teamInv_init mode⟩
  | add s id name tm now r _ ih =>
      exact ⟨strong_add ih.1 id name tm now r, teamInv_add ih.2 id name tm now r⟩
  | remove s id _ ih => exact ⟨strong_remove ih.1 id, teamInv_remove ih.2 id⟩
  | input s id inp now _ ih =>
      exact ⟨strong_input ih.1 id inp now, teamInv_input ih.2 id inp now⟩
  | shoot s id si now _ ih =>
      exact ⟨strong_shoot ih.1 id si now, teamInv_shoot ih.2 id si now⟩
  | respawn s id now r _ ih =>
      exact ⟨strong_respawn ih.1 id now r, teamInv_respawn ih.2 id now r⟩
  | tick s now dt _ ih => exact ⟨strong_tick ih.1 now dt, teamInv_tick ih.2 now dt⟩

/-- The mode-switched state that violates the claimed team invariant: a
player added in team mode keeps `team = red` after a setGameMode call with
the ffa mode. -/
def c4BadState : GameState :=
  setGameMode
    (addPlayer (GameState.init GameMode.team) "p" "P" (some Team.red) 0 0).1
    GameMode.ffa

/-- Counterexample to C4: the claimed invariant does not hold of every
reachable state — `setGameMode` resets the mode and team scores but never
clears players' team fields, so a team-mode player surviving a switch to
FFA has `team ≠ none` while the mode is not the team mode. -/
theorem c4_counterexample : ¬ (∀ s, Reachable s → claimInvC4 s) := by
  intro hall
  have hr : Reachable c4BadState :=
    Reachable.setMode _ GameMode.ffa
      (Reachable.add _ "p" "P" (some Team.red) 0 0 (Reachable.init GameMode.team))
  have hne : ¬ claimInvC4 c4BadState := by
    unfold claimInvC4
    decide
  exact hne (hall _ hr)

/-- C4 (amended): every reachable state satisfies the health clauses
(`0 ≤ health ≤ maxHealth` and dead ⇒ zero health); the team clause (team
non-null only in team mode) additionally holds for every state reachable
without a `setGameMode` call, but not in general after one. -/
theorem c4_invariants_amended (s : GameState) :
    (Reachable s → healthInv s) ∧
    (ReachableNM s → healthInv s ∧ teamInv s) := by
  constructor
  · intro hr p hp
    exact ((reachable_strongInv hr).1 p hp).1
  · intro hr
    obtain ⟨hs, ht⟩ := reachableNM_inv hr
    exact ⟨fun p hp => (hs.1 p hp).1, ht⟩

/-- Witness for the amended C4 at the two initial states. -/
theorem c4_invariants_amended_witness :
    healthInv (GameState.init GameMode.ffa) ∧
    (healthInv (GameState.init GameMode.team) ∧
      teamInv (GameState.init GameMode.team)) :=
  ⟨(c4_invariants_amended (GameState.init GameMode.ffa)).1
      (Reachable.init GameMode.ffa),
   (c4_invariants_amended (GameState.init GameMode.team)).2
      (ReachableNM.init GameMode.team)⟩

end ShaderPilot
